import Mathlib

/-!
Shallow embedding of the NVRHI Vulkan resource-binding subsystem
(`src/vulkan/vulkan-resource-bindings.cpp`), together with theorems that
settle the specification claims about it.

Machine integers (`uint32_t`) are modelled as `Nat`; wherever the C++ code
performs arithmetic that can wrap, the embedding applies an explicit
reduction modulo 2^32 (the function `u32`).  Native Vulkan handles
(descriptor sets, descriptor-set layouts, pools, buffers) carry no
observable structure here and are modelled as `Nat` identifiers.
-/

namespace nvrhi

/-- Reduction modulo 2^32, modelling `uint32_t` wraparound. -/
def u32 (n : Nat) : Nat := n % 4294967296

/-- The sentinel value `0xffffffff` used to mark holes in the
descriptor-set-index-to-binding-index map. -/
def invalidIdx : Nat := 0xffffffff

/-- `nvrhi::ResourceType` (from the public header; the values used by
`vulkan-resource-bindings.cpp`). -/
inductive ResourceType where
  | None
  | Texture_SRV
  | Texture_UAV
  | TypedBuffer_SRV
  | TypedBuffer_UAV
  | StructuredBuffer_SRV
  | StructuredBuffer_UAV
  | RawBuffer_SRV
  | RawBuffer_UAV
  | ConstantBuffer
  | VolatileConstantBuffer
  | Sampler
  | RayTracingAccelStruct
  | PushConstants
  | Count
deriving DecidableEq, Inhabited

/-- `VulkanBindingOffsets`: four base register offsets, one per resource
class. -/
structure VulkanBindingOffsets where
  shaderResource : Nat
  unorderedAccess : Nat
  constantBuffer : Nat
  sampler : Nat
deriving DecidableEq, Inhabited

/-- `nvrhi::BindingLayoutItem`: one declarative binding (register slot,
resource type, descriptor-array count / push-constant byte size). -/
structure BindingLayoutItem where
  slot : Nat
  type : ResourceType
  size : Nat
deriving DecidableEq, Inhabited

/-- Shader-stage visibility masks are opaque to this subsystem; we model
them as plain numbers. -/
abbrev ShaderStageFlags := Nat

/-- `nvrhi::BindingLayoutDesc` (the fields read by the Vulkan backend). -/
structure BindingLayoutDesc where
  visibility : ShaderStageFlags
  registerSpace : Nat
  registerSpaceIsDescriptorSet : Bool
  bindings : List BindingLayoutItem
  bindingOffsets : VulkanBindingOffsets
deriving DecidableEq, Inhabited

/-- `nvrhi::BindlessLayoutDesc::LayoutType`. -/
inductive BindlessLayoutType where
  | Immutable
  | MutableSrvUavCbv
  | MutableCounters
  | MutableSampler
deriving DecidableEq, Inhabited

/-- `nvrhi::BindlessLayoutDesc` (the fields read by the Vulkan backend). -/
structure BindlessLayoutDesc where
  visibility : ShaderStageFlags
  registerSpaces : List BindingLayoutItem
  maxCapacity : Nat
  layoutType : BindlessLayoutType
deriving DecidableEq, Inhabited

/-- The subset of `vk::DescriptorType` produced by this subsystem. -/
inductive DescriptorType where
  | eSampler
  | eSampledImage
  | eStorageImage
  | eUniformTexelBuffer
  | eStorageTexelBuffer
  | eUniformBuffer
  | eStorageBuffer
  | eUniformBufferDynamic
  | eAccelerationStructureKHR
  | eMutableEXT
deriving DecidableEq, Inhabited

/-- Modelled from the spec: `convertResourceType` lives in the Vulkan
backend outside this translation unit.  The spec fixes only the policy
(native-descriptor-type selection is driven by the semantic
`ResourceType`; the concrete numeric encoding is a non-goal), so the map
below records the standard NVRHI choice; no claim below depends on which
native type a given resource type maps to, only on the map being a
function of `ResourceType`.  The fault cases (`None`, `Count`,
`PushConstants` in contexts that convert them) are programming errors per
the spec and are sent to the default-initialized native value. -/
def convertResourceType : ResourceType → DescriptorType
  | ResourceType.Texture_SRV => DescriptorType.eSampledImage
  | ResourceType.Texture_UAV => DescriptorType.eStorageImage
  | ResourceType.TypedBuffer_SRV => DescriptorType.eUniformTexelBuffer
  | ResourceType.TypedBuffer_UAV => DescriptorType.eStorageTexelBuffer
  | ResourceType.StructuredBuffer_SRV => DescriptorType.eStorageBuffer
  | ResourceType.StructuredBuffer_UAV => DescriptorType.eStorageBuffer
  | ResourceType.RawBuffer_SRV => DescriptorType.eStorageBuffer
  | ResourceType.RawBuffer_UAV => DescriptorType.eStorageBuffer
  | ResourceType.ConstantBuffer => DescriptorType.eUniformBuffer
  | ResourceType.VolatileConstantBuffer => DescriptorType.eUniformBufferDynamic
  | ResourceType.Sampler => DescriptorType.eSampler
  | ResourceType.RayTracingAccelStruct => DescriptorType.eAccelerationStructureKHR
  | ResourceType.PushConstants => DescriptorType.eSampler
  | ResourceType.None => DescriptorType.eSampler
  | ResourceType.Count => DescriptorType.eSampler

/-- Modelled from the spec: `convertShaderTypeToShaderStageFlagBits` is a
collaborator conversion of the visibility mask to native stage flags; it
is opaque to every claim, so it is modelled as the identity on the opaque
mask. -/
def convertShaderTypeToShaderStageFlagBits (v : ShaderStageFlags) : ShaderStageFlags := v

/-- `vk::DescriptorSetLayoutBinding` (the fields this subsystem sets). -/
structure DescriptorSetLayoutBinding where
  binding : Nat
  descriptorType : DescriptorType
  descriptorCount : Nat
  stageFlags : ShaderStageFlags
deriving DecidableEq, Inhabited

/-- `getRegisterOffsetForResourceType` (lines 48-78): the base register
offset of the resource class of `type`.  The `default` branch is the
`utils::InvalidEnum()` programming-error fault, which returns 0. -/
def getRegisterOffsetForResourceType (bindingOffsets : VulkanBindingOffsets) :
    ResourceType → Nat
  | ResourceType.Texture_SRV => bindingOffsets.shaderResource
  | ResourceType.TypedBuffer_SRV => bindingOffsets.shaderResource
  | ResourceType.StructuredBuffer_SRV => bindingOffsets.shaderResource
  | ResourceType.RawBuffer_SRV => bindingOffsets.shaderResource
  | ResourceType.RayTracingAccelStruct => bindingOffsets.shaderResource
  | ResourceType.Texture_UAV => bindingOffsets.unorderedAccess
  | ResourceType.TypedBuffer_UAV => bindingOffsets.unorderedAccess
  | ResourceType.StructuredBuffer_UAV => bindingOffsets.unorderedAccess
  | ResourceType.RawBuffer_UAV => bindingOffsets.unorderedAccess
  | ResourceType.ConstantBuffer => bindingOffsets.constantBuffer
  | ResourceType.VolatileConstantBuffer => bindingOffsets.constantBuffer
  | ResourceType.PushConstants => bindingOffsets.constantBuffer
  | ResourceType.Sampler => bindingOffsets.sampler
  | ResourceType.None => 0
  | ResourceType.Count => 0

/-- Configuration faults reported through the context's diagnostic sink
(`m_Context.error(...)`), identified by call site. -/
inductive Fault where
  /-- "Mutable descriptor types are not supported by this device." -/
  | mutableDescriptorsUnsupported
  /-- "Mutable descriptor sets cannot specify register spaces" -/
  | mutableWithRegisterSpaces
  /-- "Volatile constant buffers are not supported in bindless layouts" -/
  | volatileBufferInBindlessLayout
  /-- "Binding volatile constant buffer ... before writing into it is
  invalid." (carries the offending buffer's identity) -/
  | volatileBufferNotWritten (bufferId : Nat)
deriving DecidableEq, Inhabited

/-- The device/context state this subsystem reads: extension support and
the shared empty descriptor-set layout placeholder. -/
structure VulkanContext where
  extMutableDescriptorType : Bool
  emptyDescriptorSetLayout : Nat
deriving DecidableEq, Inhabited

/-- `nvrhi::vulkan::BindingLayout`: the layout description(s), the
bindless tag, the derived native binding schema, and the native
descriptor-set-layout handle created by `bake()`. -/
structure BindingLayout where
  isBindless : Bool
  desc : BindingLayoutDesc
  bindlessDesc : BindlessLayoutDesc
  vulkanLayoutBindings : List DescriptorSetLayoutBinding
  descriptorSetLayout : Nat
deriving DecidableEq, Inhabited

/-- The body of the fixed-layout constructor loop (lines 88-109): a
`PushConstants` item is skipped; any other item appends a schema entry at
binding location `registerOffset + slot` (uint32 addition). -/
def fixedLayoutStep (offsets : VulkanBindingOffsets) (stage : ShaderStageFlags)
    (acc : List DescriptorSetLayoutBinding) (binding : BindingLayoutItem) :
    List DescriptorSetLayoutBinding :=
  if binding.type = ResourceType.PushConstants then
    acc
  else
    acc ++ [{ binding := u32 (getRegisterOffsetForResourceType offsets binding.type + binding.slot)
              descriptorType := convertResourceType binding.type
              descriptorCount := binding.size
              stageFlags := stage }]

/-- `BindingLayout::BindingLayout(const VulkanContext&, const BindingLayoutDesc&)`
(lines 80-110): builds the native binding schema for a fixed layout.  The
native layout handle is assigned later, by `bake`; its identity is
irrelevant to the claims and is left 0 here. -/
def BindingLayout.ofFixedDesc (desc : BindingLayoutDesc) : BindingLayout :=
  { isBindless := false
    desc := desc
    bindlessDesc := default
    vulkanLayoutBindings :=
      desc.bindings.foldl
        (fixedLayoutStep desc.bindingOffsets
          (convertShaderTypeToShaderStageFlagBits desc.visibility)) []
    descriptorSetLayout := 0 }

theorem fixedLayoutStep_append (offsets : VulkanBindingOffsets) (stage : ShaderStageFlags)
    (items : List BindingLayoutItem) (acc : List DescriptorSetLayoutBinding) :
    items.foldl (fixedLayoutStep offsets stage) acc
      = acc ++ items.foldl (fixedLayoutStep offsets stage) [] := by
  induction items generalizing acc with
  | nil => simp
  | cons b rest ih =>
    simp only [List.foldl_cons]
    rw [ih (fixedLayoutStep offsets stage acc b),
        ih (fixedLayoutStep offsets stage [] b)]
    unfold fixedLayoutStep
    by_cases h : b.type = ResourceType.PushConstants <;> simp [h]

theorem fixedLayout_foldl_eq_filterMap (offsets : VulkanBindingOffsets)
    (stage : ShaderStageFlags) (items : List BindingLayoutItem) :
    items.foldl (fixedLayoutStep offsets stage) []
      = (items.filter (fun b => b.type ≠ ResourceType.PushConstants)).map
          (fun b =>
            { binding := u32 (getRegisterOffsetForResourceType offsets b.type + b.slot)
              descriptorType := convertResourceType b.type
              descriptorCount := b.size
              stageFlags := stage }) := by
  induction items with
  | nil => rfl
  | cons b rest ih =>
    simp only [List.foldl_cons]
    rw [fixedLayoutStep_append, ih]
    by_cases h : b.type = ResourceType.PushConstants <;>
      simp [fixedLayoutStep, h, List.filter_cons]

/-- C1: for every fixed `BindingLayoutDesc`, the generated descriptor
schema is exactly the non-`PushConstants` items in order, each mapped to a
schema entry whose binding location is the offset policy's base offset for
the item's resource type plus the item's register slot (uint32 addition);
in particular no `PushConstants` item ever produces a schema entry. -/
theorem fixedLayout_binding_locations (desc : BindingLayoutDesc) :
    (BindingLayout.ofFixedDesc desc).vulkanLayoutBindings
      = (desc.bindings.filter (fun b => b.type ≠ ResourceType.PushConstants)).map
          (fun b =>
            { binding := u32 (getRegisterOffsetForResourceType desc.bindingOffsets b.type
                                + b.slot)
              descriptorType := convertResourceType b.type
              descriptorCount := b.size
              stageFlags := convertShaderTypeToShaderStageFlagBits desc.visibility }) := by
  unfold BindingLayout.ofFixedDesc
  exact fixedLayout_foldl_eq_filterMap _ _ _

/-! ### Bindless layout construction (lines 112-163) -/

/-- The Immutable-mode loop of the bindless constructor (lines 144-161):
one schema entry per register space, binding points assigned sequentially.
`bindingPoint` is a `uint32_t` incremented once per register space; the
source container (`static_vector` capped at `c_MaxBindlessRegisterSpaces`)
keeps the count far below 2^32, so the increment cannot wrap. -/
def immutableBindlessLoop (stage : ShaderStageFlags) (arraySize : Nat) :
    Nat → List BindingLayoutItem → List DescriptorSetLayoutBinding × List Fault
  | _, [] => ([], [])
  | bindingPoint, space :: rest =>
    let faultsHere :=
      if space.type = ResourceType.VolatileConstantBuffer then
        [Fault.volatileBufferInBindlessLayout]
      else []
    let tail := immutableBindlessLoop stage arraySize (bindingPoint + 1) rest
    ({ binding := bindingPoint
       descriptorType := convertResourceType space.type
       descriptorCount := arraySize
       stageFlags := stage } :: tail.1,
     faultsHere ++ tail.2)

/-- `BindingLayout::BindingLayout(const VulkanContext&, const BindlessLayoutDesc&)`
(lines 112-163).  Returns the constructed layout together with the
configuration faults reported through `m_Context.error`.  The copied
visibility (`desc.visibility = bindlessDesc.visibility`, line 117) is
reflected in the `desc` field. -/
def BindingLayout.ofBindlessDesc (context : VulkanContext) (bindlessDesc : BindlessLayoutDesc) :
    BindingLayout × List Fault :=
  let shaderStageFlags := convertShaderTypeToShaderStageFlagBits bindlessDesc.visibility
  let arraySize := bindlessDesc.maxCapacity
  if bindlessDesc.layoutType ≠ BindlessLayoutType.Immutable then
    let extFaults :=
      if ¬context.extMutableDescriptorType then [Fault.mutableDescriptorsUnsupported] else []
    let spaceFaults :=
      if bindlessDesc.registerSpaces.length > 0 then [Fault.mutableWithRegisterSpaces] else []
    ({ isBindless := true
       desc := { (default : BindingLayoutDesc) with visibility := bindlessDesc.visibility }
       bindlessDesc := bindlessDesc
       vulkanLayoutBindings :=
         [{ binding := 0
            descriptorType := DescriptorType.eMutableEXT
            descriptorCount := arraySize
            stageFlags := shaderStageFlags }]
       descriptorSetLayout := 0 },
     extFaults ++ spaceFaults)
  else
    let loop := immutableBindlessLoop shaderStageFlags arraySize 0 bindlessDesc.registerSpaces
    ({ isBindless := true
       desc := { (default : BindingLayoutDesc) with visibility := bindlessDesc.visibility }
       bindlessDesc := bindlessDesc
       vulkanLayoutBindings := loop.1
       descriptorSetLayout := 0 },
     loop.2)

theorem immutableBindlessLoop_bindings (stage : ShaderStageFlags) (arraySize : Nat)
    (bp : Nat) (spaces : List BindingLayoutItem) :
    (immutableBindlessLoop stage arraySize bp spaces).1.map
        DescriptorSetLayoutBinding.binding = List.range' bp spaces.length := by
  induction spaces generalizing bp with
  | nil => rfl
  | cons s rest ih => simp [immutableBindlessLoop, ih, List.range'_succ]

theorem immutableBindlessLoop_types (stage : ShaderStageFlags) (arraySize : Nat)
    (bp : Nat) (spaces : List BindingLayoutItem) :
    (immutableBindlessLoop stage arraySize bp spaces).1.map
        DescriptorSetLayoutBinding.descriptorType
      = spaces.map (fun s => convertResourceType s.type) := by
  induction spaces generalizing bp with
  | nil => rfl
  | cons s rest ih => simp [immutableBindlessLoop, ih]

theorem immutableBindlessLoop_counts (stage : ShaderStageFlags) (arraySize : Nat)
    (bp : Nat) (spaces : List BindingLayoutItem) :
    ∀ e ∈ (immutableBindlessLoop stage arraySize bp spaces).1,
      e.descriptorCount = arraySize ∧ e.stageFlags = stage := by
  induction spaces generalizing bp with
  | nil => intro e he; simp [immutableBindlessLoop] at he
  | cons s rest ih =>
    intro e he
    simp only [immutableBindlessLoop, List.mem_cons] at he
    rcases he with rfl | he
    · exact ⟨rfl, rfl⟩
    · exact ih (bp + 1) e he

theorem immutableBindlessLoop_faults (stage : ShaderStageFlags) (arraySize : Nat)
    (bp : Nat) (spaces : List BindingLayoutItem) :
    (Fault.volatileBufferInBindlessLayout ∈ (immutableBindlessLoop stage arraySize bp spaces).2
      ↔ ∃ s ∈ spaces, s.type = ResourceType.VolatileConstantBuffer) := by
  induction spaces generalizing bp with
  | nil => simp [immutableBindlessLoop]
  | cons s rest ih =>
    simp only [immutableBindlessLoop, List.mem_append, List.mem_cons]
    by_cases h : s.type = ResourceType.VolatileConstantBuffer <;>
      simp [h, ih (bp + 1)]

/-- C6: for every Immutable bindless layout description with N register
spaces, construction produces exactly N schema entries whose binding
locations are 0..N-1 in input order (entry i comes from register space i),
each with descriptor count equal to `maxCapacity`; and the construction
reports the invalid-configuration fault for a `VolatileConstantBuffer`
register space exactly when one is present. -/
theorem bindlessImmutable_schema (context : VulkanContext) (desc : BindlessLayoutDesc)
    (h : desc.layoutType = BindlessLayoutType.Immutable) :
    (BindingLayout.ofBindlessDesc context desc).1.vulkanLayoutBindings.map
        DescriptorSetLayoutBinding.binding = List.range desc.registerSpaces.length
    ∧ (BindingLayout.ofBindlessDesc context desc).1.vulkanLayoutBindings.map
        DescriptorSetLayoutBinding.descriptorType
        = desc.registerSpaces.map (fun s => convertResourceType s.type)
    ∧ (∀ e ∈ (BindingLayout.ofBindlessDesc context desc).1.vulkanLayoutBindings,
        e.descriptorCount = desc.maxCapacity)
    ∧ (Fault.volatileBufferInBindlessLayout ∈ (BindingLayout.ofBindlessDesc context desc).2
        ↔ ∃ s ∈ desc.registerSpaces, s.type = ResourceType.VolatileConstantBuffer) := by
  unfold BindingLayout.ofBindlessDesc
  simp only [h, ne_eq, not_true_eq_false, if_false, ite_false]
  refine ⟨?_, ?_, ?_, ?_⟩
  · rw [immutableBindlessLoop_bindings, List.range_eq_range']
  · exact immutableBindlessLoop_types _ _ _ _
  · intro e he; exact (immutableBindlessLoop_counts _ _ _ _ e he).1
  · exact immutableBindlessLoop_faults _ _ _ _

/-- A sample context and Immutable bindless description used to witness
the bindless-layout theorems on concrete inputs. -/
def sampleContext : VulkanContext :=
  { extMutableDescriptorType := true, emptyDescriptorSetLayout := 77 }

def sampleImmutableDesc : BindlessLayoutDesc :=
  { visibility := 3
    registerSpaces :=
      [{ slot := 0, type := ResourceType.Texture_SRV, size := 1 },
       { slot := 1, type := ResourceType.Sampler, size := 1 }]
    maxCapacity := 1024
    layoutType := BindlessLayoutType.Immutable }

theorem bindlessImmutable_schema_witness :
    sampleImmutableDesc.layoutType = BindlessLayoutType.Immutable
    ∧ ((BindingLayout.ofBindlessDesc sampleContext sampleImmutableDesc).1.vulkanLayoutBindings.map
          DescriptorSetLayoutBinding.binding
          = List.range sampleImmutableDesc.registerSpaces.length
        ∧ (BindingLayout.ofBindlessDesc sampleContext sampleImmutableDesc).1.vulkanLayoutBindings.map
            DescriptorSetLayoutBinding.descriptorType
            = sampleImmutableDesc.registerSpaces.map (fun s => convertResourceType s.type)
        ∧ (∀ e ∈ (BindingLayout.ofBindlessDesc sampleContext sampleImmutableDesc).1.vulkanLayoutBindings,
            e.descriptorCount = sampleImmutableDesc.maxCapacity)
        ∧ (Fault.volatileBufferInBindlessLayout
              ∈ (BindingLayout.ofBindlessDesc sampleContext sampleImmutableDesc).2
            ↔ ∃ s ∈ sampleImmutableDesc.registerSpaces,
                s.type = ResourceType.VolatileConstantBuffer)) :=
  ⟨rfl, bindlessImmutable_schema sampleContext sampleImmutableDesc rfl⟩

/-- C7: for every non-Immutable (mutable) bindless layout description,
construction produces exactly one schema entry, at binding location 0,
with descriptor count equal to `maxCapacity` and the mutable descriptor
type; and the invalid-configuration fault for supplying register spaces
with a mutable layout type is reported exactly when the register-space
list is non-empty. -/
theorem bindlessMutable_schema (context : VulkanContext) (desc : BindlessLayoutDesc)
    (h : desc.layoutType ≠ BindlessLayoutType.Immutable) :
    (BindingLayout.ofBindlessDesc context desc).1.vulkanLayoutBindings
      = [{ binding := 0
           descriptorType := DescriptorType.eMutableEXT
           descriptorCount := desc.maxCapacity
           stageFlags := convertShaderTypeToShaderStageFlagBits desc.visibility }]
    ∧ (Fault.mutableWithRegisterSpaces ∈ (BindingLayout.ofBindlessDesc context desc).2
        ↔ desc.registerSpaces ≠ []) := by
  refine ⟨?_, ?_⟩
  · unfold BindingLayout.ofBindlessDesc
    simp [h]
  · unfold BindingLayout.ofBindlessDesc
    simp only [ne_eq, h, not_false_eq_true, if_true, ite_true]
    by_cases hr : desc.registerSpaces = []
    · simp only [hr, List.length_nil, gt_iff_lt, Nat.lt_irrefl, ite_false]
      by_cases hx : context.extMutableDescriptorType <;> simp [hx]
    · have hlen : desc.registerSpaces.length > 0 := by
        cases hreg : desc.registerSpaces with
        | nil => exact absurd hreg hr
        | cons a l => simp
      simp [hr, hlen]

def sampleMutableDesc : BindlessLayoutDesc :=
  { visibility := 5
    registerSpaces := [{ slot := 0, type := ResourceType.Texture_SRV, size := 1 }]
    maxCapacity := 4096
    layoutType := BindlessLayoutType.MutableSrvUavCbv }

theorem bindlessMutable_schema_witness :
    sampleMutableDesc.layoutType ≠ BindlessLayoutType.Immutable
    ∧ ((BindingLayout.ofBindlessDesc sampleContext sampleMutableDesc).1.vulkanLayoutBindings
        = [{ binding := 0
             descriptorType := DescriptorType.eMutableEXT
             descriptorCount := sampleMutableDesc.maxCapacity
             stageFlags := convertShaderTypeToShaderStageFlagBits sampleMutableDesc.visibility }]
      ∧ (Fault.mutableWithRegisterSpaces
            ∈ (BindingLayout.ofBindlessDesc sampleContext sampleMutableDesc).2
          ↔ sampleMutableDesc.registerSpaces ≠ [])) :=
  ⟨by decide, bindlessMutable_schema sampleContext sampleMutableDesc (by decide)⟩

/-! ### `bake()` pool sizing (lines 249-270) -/

/-- `vk::DescriptorPoolSize` (the fields this subsystem sets). -/
structure DescriptorPoolSize where
  type : DescriptorType
  descriptorCount : Nat
deriving DecidableEq, Inhabited

/-- Association-list lookup modelling `poolSizeMap.find(...)`. -/
def poolFind : List (DescriptorType × Nat) → DescriptorType → Option Nat
  | [], _ => none
  | (k, v) :: rest, t => if k = t then some v else poolFind rest t

/-- `poolSizeMap[type] += count` on an existing key (uint32 addition). -/
def bumpPool (t : DescriptorType) (c : Nat) : List (DescriptorType × Nat) →
    List (DescriptorType × Nat)
  | [] => []
  | (k, v) :: rest =>
    if k = t then (k, u32 (v + c)) :: rest else (k, v) :: bumpPool t c rest

/-- One iteration of the pool-size counting loop (lines 251-259): insert
the type with count 0 when absent, then add this entry's descriptor
count.  `std::unordered_map` iteration order is unspecified; the model
fixes first-insertion order, a choice no claim depends on (the claims are
order-independent). -/
def poolSizeMapStep (m : List (DescriptorType × Nat)) (lb : DescriptorSetLayoutBinding) :
    List (DescriptorType × Nat) :=
  let m1 := if poolFind m lb.descriptorType = none then m ++ [(lb.descriptorType, 0)] else m
  bumpPool lb.descriptorType lb.descriptorCount m1

/-- The accumulated per-native-type descriptor counts (lines 250-259). -/
def poolSizeMap (bindings : List DescriptorSetLayoutBinding) : List (DescriptorType × Nat) :=
  bindings.foldl poolSizeMapStep []

/-- The pool-size table emission loop (lines 262-270): keep only entries
with a positive count. -/
def BindingLayout.descriptorPoolSizeInfo (layout : BindingLayout) : List DescriptorPoolSize :=
  (poolSizeMap layout.vulkanLayoutBindings).foldl
    (fun acc p => if p.2 > 0 then acc ++ [{ type := p.1, descriptorCount := p.2 }] else acc) []

/-- The reference total: the sum of the descriptor counts of all schema
entries sharing native type `t`. -/
def typeCount (bindings : List DescriptorSetLayoutBinding) (t : DescriptorType) : Nat :=
  ((bindings.filter (fun lb => lb.descriptorType = t)).map
    DescriptorSetLayoutBinding.descriptorCount).sum

theorem u32_lt (n : Nat) : u32 n < 4294967296 := Nat.mod_lt _ (by norm_num)

theorem u32_of_lt (h : n < 4294967296) : u32 n = n := Nat.mod_eq_of_lt h

theorem u32_add_left (a b : Nat) : u32 (u32 a + b) = u32 (a + b) := Nat.mod_add_mod a 4294967296 b

theorem poolFind_eq_none_iff (m : List (DescriptorType × Nat)) (t : DescriptorType) :
    poolFind m t = none ↔ t ∉ m.map Prod.fst := by
  induction m with
  | nil => simp [poolFind]
  | cons p rest ih =>
    obtain ⟨k, v⟩ := p
    by_cases h : k = t
    · subst h
      simp [poolFind]
    · simp [poolFind, h, Ne.symm h, ih]

theorem poolFind_some_mem (m : List (DescriptorType × Nat)) (t : DescriptorType) (v : Nat)
    (h : poolFind m t = some v) : (t, v) ∈ m := by
  induction m with
  | nil => simp [poolFind] at h
  | cons p rest ih =>
    obtain ⟨k, w⟩ := p
    by_cases hk : k = t
    · simp [poolFind, hk] at h
      simp [hk, h]
    · simp [poolFind, hk] at h
      exact List.mem_cons_of_mem _ (ih h)

theorem poolFind_of_mem (m : List (DescriptorType × Nat)) (q : DescriptorType × Nat)
    (hnd : (m.map Prod.fst).Nodup) (hq : q ∈ m) : poolFind m q.1 = some q.2 := by
  induction m with
  | nil => simp at hq
  | cons p rest ih =>
    obtain ⟨k, w⟩ := p
    simp only [List.map_cons, List.nodup_cons] at hnd
    rcases List.mem_cons.mp hq with rfl | hq
    · simp [poolFind]
    · have hk : k ≠ q.1 := by
        intro hkq
        exact hnd.1 (hkq ▸ List.mem_map_of_mem Prod.fst hq)
      simp [poolFind, hk]
      exact ih hnd.2 hq

theorem bumpPool_keys (t : DescriptorType) (c : Nat) (m : List (DescriptorType × Nat)) :
    (bumpPool t c m).map Prod.fst = m.map Prod.fst := by
  induction m with
  | nil => rfl
  | cons p rest ih =>
    obtain ⟨k, v⟩ := p
    by_cases h : k = t <;> simp [bumpPool, h, ih]

theorem bumpPool_find_self (t : DescriptorType) (c : Nat) (m : List (DescriptorType × Nat)) :
    poolFind (bumpPool t c m) t = (poolFind m t).map (fun v => u32 (v + c)) := by
  induction m with
  | nil => rfl
  | cons p rest ih =>
    obtain ⟨k, v⟩ := p
    by_cases h : k = t <;> simp [bumpPool, poolFind, h, ih]

theorem bumpPool_find_ne (t k : DescriptorType) (c : Nat) (m : List (DescriptorType × Nat))
    (h : k ≠ t) : poolFind (bumpPool t c m) k = poolFind m k := by
  induction m with
  | nil => rfl
  | cons p rest ih =>
    obtain ⟨k2, v⟩ := p
    by_cases h2 : k2 = t
    · subst h2
      simp [bumpPool, poolFind, Ne.symm h]
    · by_cases h3 : k2 = k <;> simp [bumpPool, poolFind, h, h2, h3, ih]

theorem bumpPool_values_lt (t : DescriptorType) (c : Nat) (m : List (DescriptorType × Nat))
    (hm : ∀ p ∈ m, p.2 < 4294967296) : ∀ p ∈ bumpPool t c m, p.2 < 4294967296 := by
  induction m with
  | nil => intro p hp; simp [bumpPool] at hp
  | cons q rest ih =>
    obtain ⟨k, v⟩ := q
    intro p hp
    by_cases h : k = t
    · simp only [bumpPool, h, if_true, ite_true, List.mem_cons] at hp
      rcases hp with rfl | hp
      · exact u32_lt _
      · exact hm p (List.mem_cons_of_mem _ hp)
    · simp only [bumpPool, h, if_false, ite_false, List.mem_cons] at hp
      rcases hp with rfl | hp
      · exact hm _ (List.mem_cons_self _ _)
      · exact ih (fun r hr => hm r (List.mem_cons_of_mem _ hr)) p hp

theorem poolFind_append_single (m : List (DescriptorType × Nat)) (t k : DescriptorType) (v : Nat) :
    poolFind (m ++ [(t, v)]) k
      = match poolFind m k with
        | some w => some w
        | none => if t = k then some v else none := by
  induction m with
  | nil => simp [poolFind]
  | cons p rest ih =>
    obtain ⟨k2, w⟩ := p
    by_cases h : k2 = k <;> simp [poolFind, h, ih]

theorem poolSizeMapStep_find_self (m : List (DescriptorType × Nat))
    (lb : DescriptorSetLayoutBinding) :
    poolFind (poolSizeMapStep m lb) lb.descriptorType
      = some (u32 ((match poolFind m lb.descriptorType with
                    | some v => v
                    | none => 0) + lb.descriptorCount)) := by
  unfold poolSizeMapStep
  cases hf : poolFind m lb.descriptorType with
  | none =>
    simp only [hf, if_true, ite_true]
    rw [bumpPool_find_self, poolFind_append_single, hf]
    all_goals simp
  | some v =>
    simp only [hf, reduceCtorEq, if_false, ite_false]
    rw [bumpPool_find_self, hf]
    all_goals simp

theorem poolSizeMapStep_find_ne (m : List (DescriptorType × Nat))
    (lb : DescriptorSetLayoutBinding) (k : DescriptorType) (h : k ≠ lb.descriptorType) :
    poolFind (poolSizeMapStep m lb) k = poolFind m k := by
  unfold poolSizeMapStep
  cases hf : poolFind m lb.descriptorType with
  | none =>
    simp only [hf, if_true, ite_true]
    rw [bumpPool_find_ne _ _ _ _ h, poolFind_append_single]
    cases hk : poolFind m k with
    | none => simp [Ne.symm h]
    | some w => simp
  | some v =>
    simp only [hf, reduceCtorEq, if_false, ite_false]
    exact bumpPool_find_ne _ _ _ _ h

theorem poolSizeMapStep_keys_nodup (m : List (DescriptorType × Nat))
    (lb : DescriptorSetLayoutBinding) (hnd : (m.map Prod.fst).Nodup) :
    ((poolSizeMapStep m lb).map Prod.fst).Nodup := by
  unfold poolSizeMapStep
  cases hf : poolFind m lb.descriptorType with
  | none =>
    simp only [hf, if_true, ite_true]
    rw [bumpPool_keys, List.map_append]
    have hnotin : lb.descriptorType ∉ m.map Prod.fst := (poolFind_eq_none_iff m _).mp hf
    refine hnd.append (List.nodup_singleton _) ?_
    intro a ha hb
    simp only [List.map_cons, List.map_nil, List.mem_singleton] at hb
    exact hnotin (hb ▸ ha)
  | some v =>
    simp only [hf, reduceCtorEq, if_false, ite_false]
    rw [bumpPool_keys]
    exact hnd

theorem poolSizeMapStep_values_lt (m : List (DescriptorType × Nat))
    (lb : DescriptorSetLayoutBinding) (hm : ∀ p ∈ m, p.2 < 4294967296) :
    ∀ p ∈ poolSizeMapStep m lb, p.2 < 4294967296 := by
  unfold poolSizeMapStep
  cases hf : poolFind m lb.descriptorType with
  | none =>
    simp only [hf, if_true, ite_true]
    refine bumpPool_values_lt _ _ _ ?_
    intro p hp
    rcases List.mem_append.mp hp with hp | hp
    · exact hm p hp
    · simp at hp
      simp [hp]
  | some v =>
    simp only [hf, reduceCtorEq, if_false, ite_false]
    exact bumpPool_values_lt _ _ _ hm

/-- The master characterization of the pool-size counting fold: the
looked-up total for `t` is the (uint32) sum of the initial value and the
descriptor counts of the remaining entries of type `t`. -/
theorem poolSizeMap_foldl_find (rest : List DescriptorSetLayoutBinding) :
    ∀ (m : List (DescriptorType × Nat)), (∀ p ∈ m, p.2 < 4294967296) →
    ∀ t, poolFind (rest.foldl poolSizeMapStep m) t
      = match poolFind m t with
        | some v => some (u32 (v + typeCount rest t))
        | none =>
          if t ∈ rest.map DescriptorSetLayoutBinding.descriptorType then
            some (u32 (typeCount rest t))
          else none := by
  induction rest with
  | nil =>
    intro m hm t
    simp only [List.foldl_nil, typeCount, List.filter_nil, List.map_nil, List.sum_nil,
      Nat.add_zero, List.not_mem_nil, if_false, ite_false]
    cases hf : poolFind m t with
    | none => rfl
    | some v =>
      have := hm _ (poolFind_some_mem m t v hf)
      simp only [u32_of_lt this]
  | cons lb rest ih =>
    intro m hm t
    rw [List.foldl_cons]
    rw [ih (poolSizeMapStep m lb) (poolSizeMapStep_values_lt m lb hm) t]
    by_cases ht : t = lb.descriptorType
    · subst ht
      rw [poolSizeMapStep_find_self]
      have htc : typeCount (lb :: rest) lb.descriptorType
          = lb.descriptorCount + typeCount rest lb.descriptorType := by
        simp [typeCount, List.filter_cons]
      have hmem : lb.descriptorType
          ∈ (lb :: rest).map DescriptorSetLayoutBinding.descriptorType := by simp
      cases hf : poolFind m lb.descriptorType with
      | none =>
        rw [htc, if_pos hmem]
        simp only [u32_add_left, u32, Option.some.injEq]
        omega
      | some v =>
        rw [htc]
        simp only [u32_add_left, u32, Option.some.injEq]
        omega
    · rw [poolSizeMapStep_find_ne m lb t ht]
      have htc : typeCount (lb :: rest) t = typeCount rest t := by
        simp [typeCount, List.filter_cons, Ne.symm ht]
      rw [htc]
      cases hf : poolFind m t with
      | some v => simp
      | none =>
        have : (t ∈ (lb :: rest).map DescriptorSetLayoutBinding.descriptorType)
            ↔ (t ∈ rest.map DescriptorSetLayoutBinding.descriptorType) := by
          simp [ht]
        simp only [this]

theorem poolSizeMap_keys_nodup (bindings : List DescriptorSetLayoutBinding) :
    ((poolSizeMap bindings).map Prod.fst).Nodup := by
  unfold poolSizeMap
  suffices h : ∀ (m : List (DescriptorType × Nat)), (m.map Prod.fst).Nodup →
      ((bindings.foldl poolSizeMapStep m).map Prod.fst).Nodup by
    exact h [] (by simp)
  induction bindings with
  | nil => intro m hm; simpa using hm
  | cons lb rest ih =>
    intro m hm
    rw [List.foldl_cons]
    exact ih _ (poolSizeMapStep_keys_nodup m lb hm)

theorem poolSizeMap_find (bindings : List DescriptorSetLayoutBinding) (t : DescriptorType) :
    poolFind (poolSizeMap bindings) t
      = if t ∈ bindings.map DescriptorSetLayoutBinding.descriptorType then
          some (u32 (typeCount bindings t))
        else none := by
  unfold poolSizeMap
  rw [poolSizeMap_foldl_find bindings [] (by simp) t]
  rfl

theorem poolEmit_foldl_append (m : List (DescriptorType × Nat))
    (acc : List DescriptorPoolSize) :
    m.foldl (fun acc p => if p.2 > 0 then
        acc ++ [{ type := p.1, descriptorCount := p.2 }] else acc) acc
      = acc ++ m.foldl (fun acc p => if p.2 > 0 then
          acc ++ [{ type := p.1, descriptorCount := p.2 }] else acc) [] := by
  induction m generalizing acc with
  | nil => simp
  | cons p rest ih =>
    simp only [List.foldl_cons]
    by_cases h : p.2 > 0
    · simp only [h, if_true, ite_true]
      conv_rhs => rw [ih]
      rw [ih]
      simp
    · simp only [h, if_false, ite_false]
      exact ih acc

theorem poolEmit_eq_filterMap (m : List (DescriptorType × Nat)) :
    m.foldl (fun acc p => if p.2 > 0 then
        acc ++ [{ type := p.1, descriptorCount := p.2 }] else acc) []
      = (m.filter (fun p => p.2 > 0)).map
          (fun p => ({ type := p.1, descriptorCount := p.2 } : DescriptorPoolSize)) := by
  induction m with
  | nil => rfl
  | cons p rest ih =>
    simp only [List.foldl_cons]
    rw [poolEmit_foldl_append, ih]
    by_cases h : p.2 > 0 <;> simp [h, List.filter_cons]

/-- C9: for every `BindingLayout`, every entry in the baked pool-size
table has a count equal to the (uint32) sum of the descriptor counts of
all schema entries sharing that entry's native descriptor type and that
count is non-zero; the table's native types are pairwise distinct; and a
native type appears in the table exactly when its (uint32) total is
positive. -/
theorem bake_poolSizes (layout : BindingLayout) :
    (∀ p ∈ layout.descriptorPoolSizeInfo,
        p.descriptorCount = u32 (typeCount layout.vulkanLayoutBindings p.type)
        ∧ p.descriptorCount ≠ 0)
    ∧ (layout.descriptorPoolSizeInfo.map DescriptorPoolSize.type).Nodup
    ∧ (∀ t : DescriptorType,
        t ∈ layout.descriptorPoolSizeInfo.map DescriptorPoolSize.type
          ↔ 0 < u32 (typeCount layout.vulkanLayoutBindings t)) := by
  have hemit : layout.descriptorPoolSizeInfo
      = ((poolSizeMap layout.vulkanLayoutBindings).filter (fun p => p.2 > 0)).map
          (fun p => ({ type := p.1, descriptorCount := p.2 } : DescriptorPoolSize)) := by
    unfold BindingLayout.descriptorPoolSizeInfo
    exact poolEmit_eq_filterMap _
  have hnd := poolSizeMap_keys_nodup layout.vulkanLayoutBindings
  refine ⟨?_, ?_, ?_⟩
  · intro p hp
    rw [hemit] at hp
    obtain ⟨q, hq, rfl⟩ := List.mem_map.mp hp
    have hqm : q ∈ poolSizeMap layout.vulkanLayoutBindings := (List.mem_filter.mp hq).1
    have hqpos : q.2 > 0 := of_decide_eq_true (List.mem_filter.mp hq).2
    have hfind := poolFind_of_mem _ q hnd hqm
    rw [poolSizeMap_find] at hfind
    by_cases hmem : q.1 ∈ layout.vulkanLayoutBindings.map
        DescriptorSetLayoutBinding.descriptorType
    · simp only [hmem, if_true, ite_true, Option.some.injEq] at hfind
      refine ⟨hfind.symm, ?_⟩
      show q.2 ≠ 0
      omega
    · simp [hmem] at hfind
  · rw [hemit]
    have hmm : (((poolSizeMap layout.vulkanLayoutBindings).filter (fun p => p.2 > 0)).map
        (fun p => ({ type := p.1, descriptorCount := p.2 } : DescriptorPoolSize))).map
          DescriptorPoolSize.type
        = ((poolSizeMap layout.vulkanLayoutBindings).filter (fun p => p.2 > 0)).map
            Prod.fst := by
      rw [List.map_map]
      rfl
    rw [hmm]
    exact hnd.sublist ((List.filter_sublist _).map Prod.fst)
  · intro t
    rw [hemit]
    constructor
    · intro ht
      simp only [List.map_map, List.mem_map, Function.comp] at ht
      obtain ⟨q, hq, hqt⟩ := ht
      have hq1 : q.1 = t := hqt
      have hqm : q ∈ poolSizeMap layout.vulkanLayoutBindings := (List.mem_filter.mp hq).1
      have hqpos : q.2 > 0 := of_decide_eq_true (List.mem_filter.mp hq).2
      have hfind := poolFind_of_mem _ q hnd hqm
      rw [poolSizeMap_find] at hfind
      by_cases hmem : q.1 ∈ layout.vulkanLayoutBindings.map
          DescriptorSetLayoutBinding.descriptorType
      · simp only [hmem, if_true, ite_true, Option.some.injEq] at hfind
        rw [← hq1, hfind]
        exact hqpos
      · simp [hmem] at hfind
    · intro ht
      have hmem : t ∈ layout.vulkanLayoutBindings.map
          DescriptorSetLayoutBinding.descriptorType := by
        by_contra hmem
        have : typeCount layout.vulkanLayoutBindings t = 0 := by
          unfold typeCount
          have : layout.vulkanLayoutBindings.filter
              (fun lb => lb.descriptorType = t) = [] := by
            rw [List.filter_eq_nil_iff]
            intro lb hlb
            simp only [decide_eq_true_eq]
            intro hlbt
            exact hmem (hlbt ▸ List.mem_map_of_mem _ hlb)
          simp [this]
        rw [this] at ht
        simp [u32] at ht
      have hfind : poolFind (poolSizeMap layout.vulkanLayoutBindings) t
          = some (u32 (typeCount layout.vulkanLayoutBindings t)) := by
        rw [poolSizeMap_find]
        simp [hmem]
      have hmq := poolFind_some_mem _ _ _ hfind
      simp only [List.map_map, List.mem_map, Function.comp]
      refine ⟨(t, u32 (typeCount layout.vulkanLayoutBindings t)), ?_, rfl⟩
      rw [List.mem_filter]
      exact ⟨hmq, decide_eq_true ht⟩

/-- A sample fixed layout whose schema repeats a native type and contains
a zero-count entry, witnessing `bake_poolSizes` on a concrete input. -/
def samplePoolLayout : BindingLayout :=
  { isBindless := false
    desc := default
    bindlessDesc := default
    vulkanLayoutBindings :=
      [{ binding := 0, descriptorType := DescriptorType.eSampledImage,
         descriptorCount := 2, stageFlags := 1 },
       { binding := 1, descriptorType := DescriptorType.eSampler,
         descriptorCount := 3, stageFlags := 1 },
       { binding := 2, descriptorType := DescriptorType.eSampledImage,
         descriptorCount := 1, stageFlags := 1 },
       { binding := 3, descriptorType := DescriptorType.eUniformBuffer,
         descriptorCount := 0, stageFlags := 1 }]
    descriptorSetLayout := 0 }

theorem bake_poolSizes_witness :
    samplePoolLayout.descriptorPoolSizeInfo
      = [{ type := DescriptorType.eSampledImage, descriptorCount := 3 },
         { type := DescriptorType.eSampler, descriptorCount := 3 }]
    ∧ ((∀ p ∈ samplePoolLayout.descriptorPoolSizeInfo,
          p.descriptorCount = u32 (typeCount samplePoolLayout.vulkanLayoutBindings p.type)
          ∧ p.descriptorCount ≠ 0)
      ∧ (samplePoolLayout.descriptorPoolSizeInfo.map DescriptorPoolSize.type).Nodup
      ∧ (∀ t : DescriptorType,
          t ∈ samplePoolLayout.descriptorPoolSizeInfo.map DescriptorPoolSize.type
            ↔ 0 < u32 (typeCount samplePoolLayout.vulkanLayoutBindings t))) :=
  ⟨by decide, bake_poolSizes samplePoolLayout⟩

/-! ### Descriptor tables (lines 627-691) and `writeDescriptorTable` (lines 693-885) -/

/-- `nvrhi::vulkan::DescriptorTable`: layout reference, current capacity,
and the native pool/set handles. -/
structure DescriptorTable where
  layout : BindingLayout
  capacity : Nat
  descriptorPool : Nat
  descriptorSet : Nat
deriving DecidableEq, Inhabited

/-- `nvrhi::BindingSetItem` (the fields `writeDescriptorTable` reads; the
per-resource payload — subresources, byte ranges, formats — is resolved by
collaborator objects outside this subsystem and does not affect the
claims, so it is not modelled). -/
structure BindingSetItem where
  slot : Nat
  type : ResourceType
  resourceHandle : Option Nat
deriving DecidableEq, Inhabited

/-- Which info pointer a `vk::WriteDescriptorSet` carries. -/
inductive WriteInfoKind where
  | image
  | buffer
  | texelBufferView
  | accelStruct
deriving DecidableEq, Inhabited

/-- `vk::WriteDescriptorSet` (the fields this subsystem sets). -/
structure WriteDescriptorSet where
  dstSet : Nat
  dstBinding : Nat
  dstArrayElement : Nat
  descriptorCount : Nat
  descriptorType : DescriptorType
  infoKind : WriteInfoKind
deriving DecidableEq, Inhabited

/-- The resource types for which `writeDescriptorForBinding`
(lines 733-861) produces a descriptor write.  `RayTracingAccelStruct`
(`utils::NotImplemented`), `PushConstants` (`utils::NotSupported`) and
`None`/`Count` (`utils::InvalidEnum`) are programming-error fault paths
that produce no write. -/
def isTableWritableType : ResourceType → Bool
  | ResourceType.Texture_SRV => true
  | ResourceType.Texture_UAV => true
  | ResourceType.TypedBuffer_SRV => true
  | ResourceType.TypedBuffer_UAV => true
  | ResourceType.StructuredBuffer_SRV => true
  | ResourceType.StructuredBuffer_UAV => true
  | ResourceType.RawBuffer_SRV => true
  | ResourceType.RawBuffer_UAV => true
  | ResourceType.ConstantBuffer => true
  | ResourceType.VolatileConstantBuffer => true
  | ResourceType.Sampler => true
  | _ => false

/-- The info pointer used per resource type in the descriptor-table write
path: textures and samplers pass image info, typed buffers pass a texel
buffer view, the remaining buffer types pass buffer info. -/
def tableWriteInfoKind : ResourceType → WriteInfoKind
  | ResourceType.Texture_SRV => WriteInfoKind.image
  | ResourceType.Texture_UAV => WriteInfoKind.image
  | ResourceType.TypedBuffer_SRV => WriteInfoKind.texelBufferView
  | ResourceType.TypedBuffer_UAV => WriteInfoKind.texelBufferView
  | ResourceType.Sampler => WriteInfoKind.image
  | _ => WriteInfoKind.buffer

/-- `writeDescriptorForBinding` (lines 733-861): for a writable type,
produce exactly one `vk::WriteDescriptorSet` with destination binding
`layoutBinding.binding`, array element `binding.slot`, descriptor count 1
and descriptor type `convertResourceType(binding.type)`; the fault paths
produce none. -/
def writeDescriptorForBinding (descriptorTable : DescriptorTable) (binding : BindingSetItem)
    (layoutBinding : DescriptorSetLayoutBinding) : List WriteDescriptorSet :=
  if isTableWritableType binding.type then
    [{ dstSet := descriptorTable.descriptorSet
       dstBinding := layoutBinding.binding
       dstArrayElement := binding.slot
       descriptorCount := 1
       descriptorType := convertResourceType binding.type
       infoKind := tableWriteInfoKind binding.type }]
  else []

/-- The Immutable-mode loop of `writeDescriptorTable` (lines 869-880):
iterate the register spaces by index, and for every space whose type
matches the binding's type, write through the layout binding at that
index. -/
def immutableTableWrites (descriptorTable : DescriptorTable) (binding : BindingSetItem)
    (layout : BindingLayout) : Nat → List BindingLayoutItem → List WriteDescriptorSet
  | _, [] => []
  | bindingLocation, space :: rest =>
    (if space.type = binding.type then
      writeDescriptorForBinding descriptorTable binding
        (layout.vulkanLayoutBindings.getD bindingLocation default)
    else [])
      ++ immutableTableWrites descriptorTable binding layout (bindingLocation + 1) rest

/-- `Device::writeDescriptorTable` (lines 693-885).  Returns the `bool`
result together with the native descriptor-update calls issued (each call
is the list of writes passed to one `updateDescriptorSets`). -/
def writeDescriptorTable (descriptorTable : DescriptorTable) (binding : BindingSetItem) :
    Bool × List (List WriteDescriptorSet) :=
  let layout := descriptorTable.layout
  if binding.slot ≥ descriptorTable.capacity then
    (false, [])
  else if binding.type = ResourceType.None then
    -- partially-bound semantics: clearing a slot needs no native write
    (true, [])
  else
    let writes :=
      if layout.bindlessDesc.layoutType ≠ BindlessLayoutType.Immutable then
        -- no register spaces: always use the first layout binding
        writeDescriptorForBinding descriptorTable binding
          (layout.vulkanLayoutBindings.getD 0 default)
      else
        immutableTableWrites descriptorTable binding layout 0
          layout.bindlessDesc.registerSpaces
    (true, [writes])

/-- `Device::resizeDescriptorTable` (lines 685-691): after the debug-only
capacity assertion the body discards all three arguments, so the table and
the native state are untouched and no native call is issued. -/
def resizeDescriptorTable (descriptorTable : DescriptorTable) (newSize : Nat)
    (keepContents : Bool) : DescriptorTable × List (List WriteDescriptorSet) :=
  (descriptorTable, [])

/-- C4: `writeDescriptorTable` returns failure and issues no native
descriptor-update call when the slot is at or beyond the table's
capacity, and returns success with no native call for a `None`-type
binding at a valid slot. -/
theorem writeDescriptorTable_capacity_none (descriptorTable : DescriptorTable)
    (binding : BindingSetItem) :
    (binding.slot ≥ descriptorTable.capacity →
      writeDescriptorTable descriptorTable binding = (false, []))
    ∧ (binding.slot < descriptorTable.capacity → binding.type = ResourceType.None →
      writeDescriptorTable descriptorTable binding = (true, [])) := by
  constructor
  · intro h
    unfold writeDescriptorTable
    simp [h]
  · intro h hn
    unfold writeDescriptorTable
    simp [Nat.not_le.mpr h, hn]

def sampleTable : DescriptorTable :=
  { layout := (BindingLayout.ofBindlessDesc sampleContext sampleImmutableDesc).1
    capacity := 1024
    descriptorPool := 5
    descriptorSet := 6 }

theorem writeDescriptorTable_capacity_none_witness :
    ((1024 : Nat) ≥ sampleTable.capacity
      ∧ writeDescriptorTable sampleTable
          { slot := 1024, type := ResourceType.Texture_SRV, resourceHandle := some 9 }
          = (false, []))
    ∧ ((3 : Nat) < sampleTable.capacity
      ∧ writeDescriptorTable sampleTable
          { slot := 3, type := ResourceType.None, resourceHandle := none }
          = (true, [])) :=
  ⟨⟨by decide,
    (writeDescriptorTable_capacity_none sampleTable
      { slot := 1024, type := ResourceType.Texture_SRV, resourceHandle := some 9 }).1
      (by decide)⟩,
   ⟨by decide,
    (writeDescriptorTable_capacity_none sampleTable
      { slot := 3, type := ResourceType.None, resourceHandle := none }).2
      (by decide) rfl⟩⟩

/-- C10: for every `newSize` within the layout's declared maximum
capacity, `resizeDescriptorTable` leaves the table (capacity, pool,
descriptor set, and hence all previously written slots) unchanged, issues
no native call, and ignores `keepContents`. -/
theorem resizeDescriptorTable_noop (descriptorTable : DescriptorTable) (newSize : Nat)
    (keepContents : Bool)
    (h : newSize ≤ descriptorTable.layout.bindlessDesc.maxCapacity) :
    resizeDescriptorTable descriptorTable newSize keepContents = (descriptorTable, [])
    ∧ resizeDescriptorTable descriptorTable newSize true
        = resizeDescriptorTable descriptorTable newSize false := ⟨rfl, rfl⟩

theorem resizeDescriptorTable_noop_witness :
    (512 : Nat) ≤ sampleTable.layout.bindlessDesc.maxCapacity
    ∧ (resizeDescriptorTable sampleTable 512 true = (sampleTable, [])
      ∧ resizeDescriptorTable sampleTable 512 true = resizeDescriptorTable sampleTable 512 false) :=
  ⟨by decide, resizeDescriptorTable_noop sampleTable 512 true (by decide)⟩

theorem ofBindlessDesc_fst_bindlessDesc (context : VulkanContext) (desc : BindlessLayoutDesc) :
    (BindingLayout.ofBindlessDesc context desc).1.bindlessDesc = desc := by
  unfold BindingLayout.ofBindlessDesc
  by_cases h : desc.layoutType = BindlessLayoutType.Immutable <;> simp [h]

theorem ofBindlessDesc_fst_mutable (context : VulkanContext) (desc : BindlessLayoutDesc)
    (h : desc.layoutType ≠ BindlessLayoutType.Immutable) :
    (BindingLayout.ofBindlessDesc context desc).1.vulkanLayoutBindings
      = [{ binding := 0
           descriptorType := DescriptorType.eMutableEXT
           descriptorCount := desc.maxCapacity
           stageFlags := convertShaderTypeToShaderStageFlagBits desc.visibility }] := by
  unfold BindingLayout.ofBindlessDesc
  simp [h]

theorem ofBindlessDesc_fst_immutable (context : VulkanContext) (desc : BindlessLayoutDesc)
    (h : desc.layoutType = BindlessLayoutType.Immutable) :
    (BindingLayout.ofBindlessDesc context desc).1.vulkanLayoutBindings
      = (immutableBindlessLoop (convertShaderTypeToShaderStageFlagBits desc.visibility)
          desc.maxCapacity 0 desc.registerSpaces).1 := by
  unfold BindingLayout.ofBindlessDesc
  simp [h]

theorem immutableBindlessLoop_length (stage : ShaderStageFlags) (arraySize : Nat)
    (bp : Nat) (spaces : List BindingLayoutItem) :
    (immutableBindlessLoop stage arraySize bp spaces).1.length = spaces.length := by
  induction spaces generalizing bp with
  | nil => rfl
  | cons s rest ih => simp [immutableBindlessLoop, ih]

theorem immutableBindlessLoop_getD_binding (stage : ShaderStageFlags) (arraySize : Nat)
    (bp j : Nat) (spaces : List BindingLayoutItem) (hj : j < spaces.length) :
    ((immutableBindlessLoop stage arraySize bp spaces).1.getD j default).binding = bp + j := by
  induction spaces generalizing bp j with
  | nil => simp at hj
  | cons s rest ih =>
    cases j with
    | zero => simp [immutableBindlessLoop]
    | succ j =>
      have hj2 : j < rest.length := by simpa using hj
      have := ih (bp + 1) j hj2
      simp only [immutableBindlessLoop, List.getD_cons_succ]
      rw [this]
      omega

theorem immutableTableWrites_no_match (descriptorTable : DescriptorTable)
    (binding : BindingSetItem) (layout : BindingLayout) (j : Nat)
    (spaces : List BindingLayoutItem) (h : ∀ s ∈ spaces, s.type ≠ binding.type) :
    immutableTableWrites descriptorTable binding layout j spaces = [] := by
  induction spaces generalizing j with
  | nil => rfl
  | cons s rest ih =>
    have hs : s.type ≠ binding.type := h s (List.mem_cons_self _ _)
    simp only [immutableTableWrites, hs, if_false, ite_false, List.nil_append]
    exact ih _ (fun x hx => h x (List.mem_cons_of_mem _ hx))

theorem immutableTableWrites_single (descriptorTable : DescriptorTable)
    (binding : BindingSetItem) (layout : BindingLayout)
    (spaces : List BindingLayoutItem) (j : Nat)
    (h : (spaces.filter (fun s => s.type = binding.type)).length = 1) :
    immutableTableWrites descriptorTable binding layout j spaces
      = writeDescriptorForBinding descriptorTable binding
          (layout.vulkanLayoutBindings.getD
            (j + spaces.findIdx (fun s => s.type = binding.type)) default) := by
  induction spaces generalizing j with
  | nil => simp at h
  | cons s rest ih =>
    by_cases hs : s.type = binding.type
    · have hrest : (rest.filter (fun s => s.type = binding.type)).length = 0 := by
        rw [List.filter_cons, if_pos (decide_eq_true hs)] at h
        simpa using h
      have hnm : ∀ x ∈ rest, x.type ≠ binding.type := by
        intro x hx
        intro hxt
        have : x ∈ rest.filter (fun s => s.type = binding.type) :=
          List.mem_filter.mpr ⟨hx, decide_eq_true hxt⟩
        rw [List.length_eq_zero.mp hrest] at this
        simp at this
      simp only [immutableTableWrites]
      rw [if_pos hs,
        immutableTableWrites_no_match descriptorTable binding layout (j + 1) rest hnm,
        List.append_nil, List.findIdx_cons, decide_eq_true hs]
      simp only [cond_true, Nat.add_zero]
    · rw [List.filter_cons, if_neg (by simpa using hs)] at h
      simp only [immutableTableWrites]
      rw [if_neg hs, List.nil_append, ih _ h, List.findIdx_cons, decide_eq_false hs]
      simp only [cond_false]
      congr 2
      omega

/-- C8: for every successful `writeDescriptorTable` call on a writable
(non-`None`, non-fault) binding at a valid slot against a layout built by
the bindless constructor: in mutable mode exactly one native
descriptor-update call is issued containing exactly one single-element
write targeting binding location 0 with the slot as the array index; in
Immutable mode, when exactly one register space matches the binding's
resource type, the single write targets that space's binding location
(its index, by construction) with the slot as the array index. -/
theorem writeDescriptorTable_write_targets (context : VulkanContext)
    (desc : BindlessLayoutDesc) (descriptorTable : DescriptorTable)
    (binding : BindingSetItem)
    (htab : descriptorTable.layout = (BindingLayout.ofBindlessDesc context desc).1)
    (hslot : binding.slot < descriptorTable.capacity)
    (hwr : isTableWritableType binding.type = true) :
    (desc.layoutType ≠ BindlessLayoutType.Immutable →
      writeDescriptorTable descriptorTable binding
        = (true, [[{ dstSet := descriptorTable.descriptorSet
                     dstBinding := 0
                     dstArrayElement := binding.slot
                     descriptorCount := 1
                     descriptorType := convertResourceType binding.type
                     infoKind := tableWriteInfoKind binding.type }]]))
    ∧ (desc.layoutType = BindlessLayoutType.Immutable →
       (desc.registerSpaces.filter (fun s => s.type = binding.type)).length = 1 →
      writeDescriptorTable descriptorTable binding
        = (true, [[{ dstSet := descriptorTable.descriptorSet
                     dstBinding := desc.registerSpaces.findIdx
                       (fun s => s.type = binding.type)
                     dstArrayElement := binding.slot
                     descriptorCount := 1
                     descriptorType := convertResourceType binding.type
                     infoKind := tableWriteInfoKind binding.type }]])) := by
  have hnone : binding.type ≠ ResourceType.None := by
    intro hn
    rw [hn] at hwr
    simp [isTableWritableType] at hwr
  have hle : ¬ binding.slot ≥ descriptorTable.capacity := Nat.not_le.mpr hslot
  constructor
  · intro hmode
    unfold writeDescriptorTable
    rw [if_neg hle, if_neg hnone]
    simp only [htab, ofBindlessDesc_fst_bindlessDesc]
    rw [if_pos hmode, ofBindlessDesc_fst_mutable context desc hmode]
    simp [writeDescriptorForBinding, hwr]
  · intro hmode huniq
    unfold writeDescriptorTable
    rw [if_neg hle, if_neg hnone]
    simp only [htab, ofBindlessDesc_fst_bindlessDesc]
    rw [if_neg (by simp [hmode])]
    rw [immutableTableWrites_single descriptorTable binding _ desc.registerSpaces 0 huniq]
    have hexists : ∃ s, s ∈ desc.registerSpaces ∧ (fun s => s.type = binding.type) s := by
      have hne : desc.registerSpaces.filter (fun s => s.type = binding.type) ≠ [] := by
        intro hnil
        rw [hnil] at huniq
        simp at huniq
      obtain ⟨x, hx⟩ := List.exists_mem_of_ne_nil _ hne
      exact ⟨x, (List.mem_filter.mp hx).1, of_decide_eq_true (List.mem_filter.mp hx).2⟩
    have hidx : desc.registerSpaces.findIdx (fun s => s.type = binding.type)
        < desc.registerSpaces.length := by
      apply List.findIdx_lt_length_of_exists
      simpa using hexists
    rw [ofBindlessDesc_fst_immutable context desc hmode]
    rw [Nat.zero_add]
    simp only [writeDescriptorForBinding, hwr, if_true, ite_true]
    rw [immutableBindlessLoop_getD_binding _ _ 0 _ desc.registerSpaces hidx]
    rw [Nat.zero_add]

/-- A sample descriptor table over the Immutable layout, plus a matching
binding, witnessing `writeDescriptorTable_write_targets`. -/
def sampleSamplerBinding : BindingSetItem :=
  { slot := 7, type := ResourceType.Sampler, resourceHandle := some 11 }

theorem writeDescriptorTable_write_targets_witness :
    (sampleTable.layout = (BindingLayout.ofBindlessDesc sampleContext sampleImmutableDesc).1
      ∧ sampleSamplerBinding.slot < sampleTable.capacity
      ∧ isTableWritableType sampleSamplerBinding.type = true)
    ∧ ((sampleImmutableDesc.layoutType ≠ BindlessLayoutType.Immutable →
        writeDescriptorTable sampleTable sampleSamplerBinding
          = (true, [[{ dstSet := sampleTable.descriptorSet
                       dstBinding := 0
                       dstArrayElement := sampleSamplerBinding.slot
                       descriptorCount := 1
                       descriptorType := convertResourceType sampleSamplerBinding.type
                       infoKind := tableWriteInfoKind sampleSamplerBinding.type }]]))
      ∧ (sampleImmutableDesc.layoutType = BindlessLayoutType.Immutable →
         (sampleImmutableDesc.registerSpaces.filter
            (fun s => s.type = sampleSamplerBinding.type)).length = 1 →
        writeDescriptorTable sampleTable sampleSamplerBinding
          = (true, [[{ dstSet := sampleTable.descriptorSet
                       dstBinding := sampleImmutableDesc.registerSpaces.findIdx
                         (fun s => s.type = sampleSamplerBinding.type)
                       dstArrayElement := sampleSamplerBinding.slot
                       descriptorCount := 1
                       descriptorType := convertResourceType sampleSamplerBinding.type
                       infoKind := tableWriteInfoKind sampleSamplerBinding.type }]]))) :=
  ⟨⟨rfl, by decide, by decide⟩,
   writeDescriptorTable_write_targets sampleContext sampleImmutableDesc sampleTable
     sampleSamplerBinding rfl (by decide) (by decide)⟩

/-! ### Pipeline layout assembly: `createPipelineLayout` (lines 969-1094) -/

/-- Index-paired traversal, modelling the `for (uint32_t i = 0; ...)`
loop over `inBindingLayouts` starting at index `k`. -/
def enumFrom : Nat → List α → List (Nat × α)
  | _, [] => []
  | k, a :: rest => (k, a) :: enumFrom (k + 1) rest

/-- The mode decision (lines 980-989): the
`registerSpaceIsDescriptorSet` flag of the first non-bindless layout
(false when there is none). -/
def createIdxFlag : List BindingLayout → Bool
  | [] => false
  | layout :: rest =>
    if layout.isBindless then createIdxFlag rest
    else layout.desc.registerSpaceIsDescriptorSet

/-- The regular descriptor-set count (lines 1000-1008):
`max over non-bindless layouts of (registerSpace + 1)` (uint32 addition),
starting from 0. -/
def numRegularDescriptorSets (inBindingLayouts : List BindingLayout) : Nat :=
  inBindingLayouts.foldl
    (fun n layout =>
      if layout.isBindless then n else max n (u32 (layout.desc.registerSpace + 1)))
    0

/-- The placement loop (lines 1017-1035): bindless layouts are appended
at the end, non-bindless layouts are stored at the descriptor-set index
equal to their register space. -/
def placeLayouts : List (Nat × BindingLayout) →
    List (Option BindingLayout) × List Nat → List (Option BindingLayout) × List Nat
  | [], acc => acc
  | (i, layout) :: rest, (outL, outIdx) =>
    if layout.isBindless then
      placeLayouts rest (outL ++ [some layout], outIdx ++ [i])
    else
      placeLayouts rest
        (outL.set layout.desc.registerSpace (some layout),
         outIdx.set layout.desc.registerSpace i)

/-- The descriptor-set-layout / push-constant accumulation loop
(lines 1048-1076): emit each layout's native descriptor-set layout (the
shared empty layout for holes), and for each non-bindless layout scan its
items for the first `PushConstants` entry, overwriting the pending
push-constant size and visibility. -/
def pipelineFinalStep (context : VulkanContext)
    (acc : List Nat × Nat × ShaderStageFlags) (ol : Option BindingLayout) :
    List Nat × Nat × ShaderStageFlags :=
  match ol with
  | some layout =>
    let dsls := acc.1 ++ [layout.descriptorSetLayout]
    if layout.isBindless then (dsls, acc.2.1, acc.2.2)
    else
      match layout.desc.bindings.find? (fun item => item.type = ResourceType.PushConstants) with
      | some item =>
        (dsls, item.size, convertShaderTypeToShaderStageFlagBits layout.desc.visibility)
      | none => (dsls, acc.2.1, acc.2.2)
  | none => (acc.1 ++ [context.emptyDescriptorSetLayout], acc.2.1, acc.2.2)

/-- The observable outputs of `createPipelineLayout`. -/
structure PipelineLayoutResult where
  outBindingLayouts : List (Option BindingLayout)
  outDescriptorSetIdxToBindingIdx : List Nat
  descriptorSetLayouts : List Nat
  pushConstantSize : Nat
  outPushConstantVisibility : ShaderStageFlags
deriving DecidableEq, Inhabited

/-- `createPipelineLayout` (lines 969-1094), as a pure function from the
context and the input binding layouts to its observable outputs.  The
native `vk::createPipelineLayout` call consumes `descriptorSetLayouts`
and the push-constant range; its result value is a collaborator concern. -/
def createPipelineLayout (context : VulkanContext) (inBindingLayouts : List BindingLayout) :
    PipelineLayoutResult :=
  let placed :=
    if createIdxFlag inBindingLayouts then
      let n := numRegularDescriptorSets inBindingLayouts
      placeLayouts (enumFrom 0 inBindingLayouts)
        (List.replicate n none, List.replicate n invalidIdx)
    else
      (inBindingLayouts.map some, [])
  let final := placed.1.foldl (pipelineFinalStep context) ([], 0, 0)
  { outBindingLayouts := placed.1
    outDescriptorSetIdxToBindingIdx := placed.2
    descriptorSetLayouts := final.1
    pushConstantSize := final.2.1
    outPushConstantVisibility := final.2.2 }

theorem placeLayouts_append (a b : List (Nat × BindingLayout))
    (acc : List (Option BindingLayout) × List Nat) :
    placeLayouts (a ++ b) acc = placeLayouts b (placeLayouts a acc) := by
  induction a generalizing acc with
  | nil => rfl
  | cons p rest ih =>
    obtain ⟨i, layout⟩ := p
    obtain ⟨o, m⟩ := acc
    by_cases h : layout.isBindless <;> simp [placeLayouts, h, ih]

theorem placeLayouts_cons_bindless (i : Nat) (layout : BindingLayout)
    (rest : List (Nat × BindingLayout)) (o : List (Option BindingLayout)) (m : List Nat)
    (h : layout.isBindless = true) :
    placeLayouts ((i, layout) :: rest) (o, m)
      = placeLayouts rest (o ++ [some layout], m ++ [i]) := by
  simp [placeLayouts, h]

theorem placeLayouts_cons_regular (i : Nat) (layout : BindingLayout)
    (rest : List (Nat × BindingLayout)) (o : List (Option BindingLayout)) (m : List Nat)
    (h : layout.isBindless = false) :
    placeLayouts ((i, layout) :: rest) (o, m)
      = placeLayouts rest
          (o.set layout.desc.registerSpace (some layout),
           m.set layout.desc.registerSpace i) := by
  simp [placeLayouts, h]

theorem placeLayouts_lengths (xs : List (Nat × BindingLayout))
    (o : List (Option BindingLayout)) (m : List Nat) :
    (placeLayouts xs (o, m)).1.length
        = o.length + (xs.filter (fun p => p.2.isBindless)).length
    ∧ (placeLayouts xs (o, m)).2.length
        = m.length + (xs.filter (fun p => p.2.isBindless)).length := by
  induction xs generalizing o m with
  | nil => simp [placeLayouts]
  | cons p rest ih =>
    obtain ⟨i, layout⟩ := p
    cases h : layout.isBindless
    · rw [placeLayouts_cons_regular i layout rest o m h]
      have := ih (o.set layout.desc.registerSpace (some layout))
        (m.set layout.desc.registerSpace i)
      simp only [List.length_set] at this
      constructor
      · rw [this.1, List.filter_cons]
        simp [h]
      · rw [this.2, List.filter_cons]
        simp [h]
    · rw [placeLayouts_cons_bindless i layout rest o m h]
      have := ih (o ++ [some layout]) (m ++ [i])
      simp only [List.length_append, List.length_singleton] at this
      constructor
      · rw [this.1, List.filter_cons]
        simp [h]
        omega
      · rw [this.2, List.filter_cons]
        simp [h]
        omega

theorem placeLayouts_get_low (xs : List (Nat × BindingLayout))
    (o : List (Option BindingLayout)) (m : List Nat) (k : Nat)
    (hko : k < o.length) (hkm : k < m.length)
    (hne : ∀ p ∈ xs, p.2.isBindless = false → p.2.desc.registerSpace ≠ k) :
    (placeLayouts xs (o, m)).1[k]? = o[k]? ∧ (placeLayouts xs (o, m)).2[k]? = m[k]? := by
  induction xs generalizing o m with
  | nil => exact ⟨rfl, rfl⟩
  | cons p rest ih =>
    obtain ⟨i, layout⟩ := p
    cases h : layout.isBindless
    · rw [placeLayouts_cons_regular i layout rest o m h]
      have hrs : layout.desc.registerSpace ≠ k :=
        hne (i, layout) (List.mem_cons_self _ _) h
      have hrest : ∀ p ∈ rest, p.2.isBindless = false → p.2.desc.registerSpace ≠ k :=
        fun p hp => hne p (List.mem_cons_of_mem _ hp)
      have := ih (o.set layout.desc.registerSpace (some layout))
        (m.set layout.desc.registerSpace i)
        (by simpa using hko) (by simpa using hkm) hrest
      rw [this.1, this.2, List.getElem?_set_ne hrs, List.getElem?_set_ne hrs]
      exact ⟨rfl, rfl⟩
    · rw [placeLayouts_cons_bindless i layout rest o m h]
      have hrest : ∀ p ∈ rest, p.2.isBindless = false → p.2.desc.registerSpace ≠ k :=
        fun p hp => hne p (List.mem_cons_of_mem _ hp)
      have := ih (o ++ [some layout]) (m ++ [i])
        (by simp; omega) (by simp; omega) hrest
      rw [this.1, this.2, List.getElem?_append_left hko, List.getElem?_append_left hkm]
      exact ⟨rfl, rfl⟩

theorem placeLayouts_drop (xs : List (Nat × BindingLayout))
    (o : List (Option BindingLayout)) (m : List Nat)
    (hlen : o.length = m.length)
    (hrs : ∀ p ∈ xs, p.2.isBindless = false → p.2.desc.registerSpace < m.length) :
    (placeLayouts xs (o, m)).1.drop o.length
        = (xs.filter (fun p => p.2.isBindless)).map (fun p => some p.2)
    ∧ (placeLayouts xs (o, m)).2.drop m.length
        = (xs.filter (fun p => p.2.isBindless)).map Prod.fst := by
  induction xs generalizing o m with
  | nil =>
    simp only [placeLayouts, List.filter_nil, List.map_nil]
    constructor <;> simp [List.drop_eq_nil_iff]
  | cons p rest ih =>
    obtain ⟨i, layout⟩ := p
    cases hbl : layout.isBindless
    case false =>
      rw [placeLayouts_cons_regular i layout rest o m hbl]
      have hrest : ∀ p ∈ rest, p.2.isBindless = false
          → p.2.desc.registerSpace < (m.set layout.desc.registerSpace i).length := by
        intro p hp hb
        have := hrs p (List.mem_cons_of_mem _ hp) hb
        simpa using this
      have hih := ih (o.set layout.desc.registerSpace (some layout))
        (m.set layout.desc.registerSpace i) (by simpa using hlen) hrest
      simp only [List.length_set] at hih
      rw [List.filter_cons]
      simp only [hbl, if_false, ite_false, Bool.false_eq_true]
      exact hih
    case true =>
      rw [placeLayouts_cons_bindless i layout rest o m hbl]
      have hrest : ∀ p ∈ rest, p.2.isBindless = false
          → p.2.desc.registerSpace < (m ++ [i]).length := by
        intro p hp hb
        have := hrs p (List.mem_cons_of_mem _ hp) hb
        simp
        omega
      have hih := ih (o ++ [some layout]) (m ++ [i]) (by simp [hlen]) hrest
      have hstable := placeLayouts_get_low rest (o ++ [some layout]) (m ++ [i]) o.length
        (by simp) (by simp; omega)
        (by
          intro p hp hb
          have := hrs p (List.mem_cons_of_mem _ hp) hb
          omega)
      have hL1 : o.length < (placeLayouts rest (o ++ [some layout], m ++ [i])).1.length := by
        have := (placeLayouts_lengths rest (o ++ [some layout]) (m ++ [i])).1
        simp only [this, List.length_append, List.length_singleton]
        omega
      have hL2 : m.length < (placeLayouts rest (o ++ [some layout], m ++ [i])).2.length := by
        have := (placeLayouts_lengths rest (o ++ [some layout]) (m ++ [i])).2
        simp only [this, List.length_append, List.length_singleton]
        omega
      constructor
      · rw [List.drop_eq_getElem_cons hL1, List.filter_cons]
        simp only [hbl, if_true, ite_true, List.map_cons]
        have hhead : (placeLayouts rest (o ++ [some layout], m ++ [i])).1[o.length]?
            = some (some layout) := by
          rw [hstable.1, List.getElem?_concat_length]
        rw [List.getElem?_eq_getElem hL1] at hhead
        have hh := Option.some.inj hhead
        rw [hh]
        have htail := hih.1
        simp only [List.length_append, List.length_singleton] at htail
        rw [htail]
      · rw [List.drop_eq_getElem_cons hL2, List.filter_cons]
        simp only [hbl, if_true, ite_true, List.map_cons]
        have hhead : (placeLayouts rest (o ++ [some layout], m ++ [i])).2[m.length]?
            = some i := by
          rw [← hlen, hstable.2, hlen]
          exact List.getElem?_concat_length m i
        rw [List.getElem?_eq_getElem hL2] at hhead
        have hh := Option.some.inj hhead
        rw [hh]
        have htail := hih.2
        simp only [List.length_append, List.length_singleton] at htail
        rw [htail]

theorem enumFrom_append (k : Nat) (a b : List α) :
    enumFrom k (a ++ b) = enumFrom k a ++ enumFrom (k + a.length) b := by
  induction a generalizing k with
  | nil => simp [enumFrom]
  | cons x rest ih =>
    simp only [List.cons_append, enumFrom, List.length_cons, List.append_eq]
    rw [ih (k + 1)]
    have he : k + 1 + rest.length = k + (rest.length + 1) := by omega
    rw [he]

theorem enumFrom_snd_mem (k : Nat) (ls : List α) (p : Nat × α) (hp : p ∈ enumFrom k ls) :
    p.2 ∈ ls := by
  induction ls generalizing k with
  | nil => simp [enumFrom] at hp
  | cons x rest ih =>
    simp only [enumFrom, List.mem_cons] at hp
    rcases hp with rfl | hp
    · exact List.mem_cons_self _ _
    · exact List.mem_cons_of_mem _ (ih (k + 1) hp)

theorem enumFrom_filter_bindless_fst (k : Nat) (ls : List BindingLayout) :
    ((enumFrom k ls).filter (fun p => p.2.isBindless)).map (fun p => some p.2)
      = (ls.filter (fun l => l.isBindless)).map some := by
  induction ls generalizing k with
  | nil => rfl
  | cons l rest ih =>
    simp only [enumFrom, List.filter_cons]
    cases h : l.isBindless <;> simp [h, ih (k + 1)]

theorem enumFrom_filter_bindless_length (k : Nat) (ls : List BindingLayout) :
    ((enumFrom k ls).filter (fun p => p.2.isBindless)).length
      = (ls.filter (fun l => l.isBindless)).length := by
  induction ls generalizing k with
  | nil => rfl
  | cons l rest ih =>
    simp only [enumFrom, List.filter_cons]
    cases h : l.isBindless <;> simp [h, ih (k + 1)]

theorem createIdxFlag_exists_regular (ls : List BindingLayout)
    (h : createIdxFlag ls = true) : ∃ l ∈ ls, l.isBindless = false := by
  induction ls with
  | nil => simp [createIdxFlag] at h
  | cons l rest ih =>
    by_cases hb : l.isBindless = true
    · rw [createIdxFlag, if_pos hb] at h
      obtain ⟨x, hx, hxb⟩ := ih h
      exact ⟨x, List.mem_cons_of_mem _ hx, hxb⟩
    · exact ⟨l, List.mem_cons_self _ _, by simpa using hb⟩

theorem foldl_max_succ (l : List Nat) (c : Nat) :
    l.foldl (fun n r => max n (r + 1)) (c + 1) = 1 + l.foldl max c := by
  induction l generalizing c with
  | nil => simp [Nat.add_comm]
  | cons a rest ih =>
    simp only [List.foldl_cons]
    rw [show max (c + 1) (a + 1) = max c a + 1 by omega, ih]

theorem numRegular_foldl_filtered (ls : List BindingLayout) (c : Nat)
    (hfit : ∀ l ∈ ls, l.isBindless = false → l.desc.registerSpace + 1 < 4294967296) :
    ls.foldl
      (fun n layout =>
        if layout.isBindless then n else max n (u32 (layout.desc.registerSpace + 1))) c
      = ((ls.filter (fun l => !l.isBindless)).map
          (fun l => l.desc.registerSpace)).foldl (fun n r => max n (r + 1)) c := by
  induction ls generalizing c with
  | nil => rfl
  | cons l rest ih =>
    have hfit2 : ∀ x ∈ rest, x.isBindless = false → x.desc.registerSpace + 1 < 4294967296 :=
      fun x hx => hfit x (List.mem_cons_of_mem _ hx)
    simp only [List.foldl_cons, List.filter_cons]
    cases h : l.isBindless
    · have hrs := hfit l (List.mem_cons_self _ _) h
      simp only [h, Bool.not_false, if_true, ite_true, List.map_cons, List.foldl_cons,
        u32_of_lt hrs]
      exact ih _ hfit2
    · simp only [h, Bool.not_true, if_true, ite_true, if_false, ite_false]
      exact ih c hfit2

theorem foldl_max1_le (l : List Nat) (c : Nat) :
    c ≤ l.foldl (fun n r => max n (r + 1)) c := by
  induction l generalizing c with
  | nil => simp
  | cons a rest ih =>
    simp only [List.foldl_cons]
    exact le_trans (Nat.le_max_left c (a + 1)) (ih _)

theorem foldl_max1_ge_mem (l : List Nat) (c : Nat) (r : Nat) (hr : r ∈ l) :
    r + 1 ≤ l.foldl (fun n r => max n (r + 1)) c := by
  induction l generalizing c with
  | nil => simp at hr
  | cons a rest ih =>
    simp only [List.foldl_cons]
    rcases List.mem_cons.mp hr with rfl | hr
    · exact le_trans (Nat.le_max_right c (r + 1)) (foldl_max1_le rest _)
    · exact ih _ hr

/-- On a layout list whose non-bindless register spaces satisfy
`registerSpace + 1 < 2^32` (so the uint32 increment cannot wrap), the
regular descriptor-set count computed by the code equals
`1 + max registerSpace` over the non-bindless layouts, provided at least
one exists. -/
theorem numRegularDescriptorSets_eq (ls : List BindingLayout)
    (hfit : ∀ l ∈ ls, l.isBindless = false → l.desc.registerSpace + 1 < 4294967296)
    (hne : (ls.filter (fun l => !l.isBindless)) ≠ []) :
    numRegularDescriptorSets ls
      = 1 + ((ls.filter (fun l => !l.isBindless)).map
          (fun l => l.desc.registerSpace)).foldl max 0 := by
  unfold numRegularDescriptorSets
  rw [numRegular_foldl_filtered ls 0 hfit]
  cases hfl : (ls.filter (fun l => !l.isBindless)).map (fun l => l.desc.registerSpace) with
  | nil =>
    have hnil : (ls.filter (fun l => !l.isBindless)) = [] := by
      have hlen := congrArg List.length hfl
      simp only [List.length_map, List.length_nil] at hlen
      exact List.length_eq_zero.mp hlen
    exact absurd hnil hne
  | cons a t =>
    simp only [List.foldl_cons, Nat.zero_max]
    exact foldl_max_succ t a

theorem enumFrom_fst_ge (k : Nat) (ls : List α) (p : Nat × α) (hp : p ∈ enumFrom k ls) :
    k ≤ p.1 := by
  induction ls generalizing k with
  | nil => simp [enumFrom] at hp
  | cons x rest ih =>
    simp only [enumFrom, List.mem_cons] at hp
    rcases hp with rfl | hp
    · exact Nat.le_refl _
    · exact Nat.le_of_succ_le (ih (k + 1) hp)

theorem pipelineFinal_dsls (context : VulkanContext) (placed : List (Option BindingLayout)) :
    ∀ (acc : List Nat) (s : Nat) (v : ShaderStageFlags),
    (placed.foldl (pipelineFinalStep context) (acc, s, v)).1
      = acc ++ placed.map (fun ol =>
          match ol with
          | some layout => layout.descriptorSetLayout
          | none => context.emptyDescriptorSetLayout) := by
  induction placed with
  | nil => simp
  | cons ol rest ih =>
    intro acc s v
    simp only [List.foldl_cons, List.map_cons]
    cases ol with
    | none =>
      rw [show pipelineFinalStep context (acc, s, v) none
            = (acc ++ [context.emptyDescriptorSetLayout], s, v) from rfl]
      rw [ih]
      simp
    | some layout =>
      have hstep : ∃ s2 v2, pipelineFinalStep context (acc, s, v) (some layout)
          = (acc ++ [layout.descriptorSetLayout], s2, v2) := by
        unfold pipelineFinalStep
        cases hb : layout.isBindless
        · cases hf : layout.desc.bindings.find?
              (fun item => item.type = ResourceType.PushConstants) with
          | none => exact ⟨s, v, by simp [hb, hf]⟩
          | some item =>
            exact ⟨item.size,
              convertShaderTypeToShaderStageFlagBits layout.desc.visibility,
              by simp [hb, hf]⟩
        · exact ⟨s, v, by simp [hb]⟩
      obtain ⟨s2, v2, hstep⟩ := hstep
      rw [hstep, ih]
      simp

theorem createPipelineLayout_eq_indexed (context : VulkanContext)
    (inLayouts : List BindingLayout) (hmode : createIdxFlag inLayouts = true) :
    createPipelineLayout context inLayouts
      = (let placed := placeLayouts (enumFrom 0 inLayouts)
            (List.replicate (numRegularDescriptorSets inLayouts) none,
             List.replicate (numRegularDescriptorSets inLayouts) invalidIdx)
         let final := placed.1.foldl (pipelineFinalStep context) ([], 0, 0)
         { outBindingLayouts := placed.1
           outDescriptorSetIdxToBindingIdx := placed.2
           descriptorSetLayouts := final.1
           pushConstantSize := final.2.1
           outPushConstantVisibility := final.2.2 }) := by
  simp [createPipelineLayout, hmode]

/-- C2: in indexed mode (the first non-bindless layout has
`registerSpaceIsDescriptorSet` set), with non-colliding register spaces
and no uint32 wrap in `registerSpace + 1`:
the regular slot count equals 1 + the maximum `registerSpace` of the
non-bindless layouts; the output maps have one slot per regular index
plus one per bindless layout; each non-bindless input layout occupies the
descriptor-set index equal to its register space (index map entry = its
input position); bindless layouts are appended after the regular slots in
input order; and every unused regular slot carries the 0xFFFFFFFF
sentinel, holds no layout, and is given the shared empty descriptor-set
layout. -/
theorem createPipelineLayout_indexed (context : VulkanContext)
    (inLayouts : List BindingLayout)
    (hmode : createIdxFlag inLayouts = true)
    (hfit : ∀ l ∈ inLayouts, l.isBindless = false → l.desc.registerSpace + 1 < 4294967296)
    (hdist : ∀ p ∈ enumFrom 0 inLayouts, ∀ q ∈ enumFrom 0 inLayouts,
        p.2.isBindless = false → q.2.isBindless = false → p.1 ≠ q.1 →
        p.2.desc.registerSpace ≠ q.2.desc.registerSpace) :
    numRegularDescriptorSets inLayouts
        = 1 + ((inLayouts.filter (fun l => !l.isBindless)).map
            (fun l => l.desc.registerSpace)).foldl max 0
    ∧ (createPipelineLayout context inLayouts).outDescriptorSetIdxToBindingIdx.length
        = numRegularDescriptorSets inLayouts
          + (inLayouts.filter (fun l => l.isBindless)).length
    ∧ (createPipelineLayout context inLayouts).outBindingLayouts.length
        = numRegularDescriptorSets inLayouts
          + (inLayouts.filter (fun l => l.isBindless)).length
    ∧ (∀ i, ∀ hi : i < inLayouts.length,
        (inLayouts.get ⟨i, hi⟩).isBindless = false →
        (createPipelineLayout context inLayouts).outDescriptorSetIdxToBindingIdx[
            (inLayouts.get ⟨i, hi⟩).desc.registerSpace]? = some i
        ∧ (createPipelineLayout context inLayouts).outBindingLayouts[
            (inLayouts.get ⟨i, hi⟩).desc.registerSpace]?
            = some (some (inLayouts.get ⟨i, hi⟩)))
    ∧ (createPipelineLayout context inLayouts).outDescriptorSetIdxToBindingIdx.drop
          (numRegularDescriptorSets inLayouts)
        = ((enumFrom 0 inLayouts).filter (fun p => p.2.isBindless)).map Prod.fst
    ∧ (createPipelineLayout context inLayouts).outBindingLayouts.drop
          (numRegularDescriptorSets inLayouts)
        = (inLayouts.filter (fun l => l.isBindless)).map some
    ∧ (∀ k, k < numRegularDescriptorSets inLayouts →
        (∀ l ∈ inLayouts, l.isBindless = false → l.desc.registerSpace ≠ k) →
        (createPipelineLayout context inLayouts).outDescriptorSetIdxToBindingIdx[k]?
            = some invalidIdx
        ∧ (createPipelineLayout context inLayouts).outBindingLayouts[k]? = some none
        ∧ (createPipelineLayout context inLayouts).descriptorSetLayouts[k]?
            = some context.emptyDescriptorSetLayout) := by
  have hFne : inLayouts.filter (fun l => !l.isBindless) ≠ [] := by
    obtain ⟨l, hl, hb⟩ := createIdxFlag_exists_regular inLayouts hmode
    intro hnil
    have : l ∈ inLayouts.filter (fun l => !l.isBindless) :=
      List.mem_filter.mpr ⟨hl, by simp [hb]⟩
    rw [hnil] at this
    simp at this
  have ha := numRegularDescriptorSets_eq inLayouts hfit hFne
  have hlt : ∀ l ∈ inLayouts, l.isBindless = false →
      l.desc.registerSpace < numRegularDescriptorSets inLayouts := by
    intro l hl hb
    have h1 : l.desc.registerSpace
        ∈ (inLayouts.filter (fun l => !l.isBindless)).map (fun l => l.desc.registerSpace) :=
      List.mem_map_of_mem _ (List.mem_filter.mpr ⟨hl, by simp [hb]⟩)
    have h2 := foldl_max1_ge_mem _ 0 _ h1
    unfold numRegularDescriptorSets
    rw [numRegular_foldl_filtered inLayouts 0 hfit]
    omega
  set N := numRegularDescriptorSets inLayouts with hN
  set E := enumFrom 0 inLayouts with hE
  have hErs : ∀ p ∈ E, p.2.isBindless = false →
      p.2.desc.registerSpace < (List.replicate N invalidIdx).length := by
    intro p hp hb
    have := hlt p.2 (enumFrom_snd_mem 0 inLayouts p hp) hb
    simpa using this
  rw [createPipelineLayout_eq_indexed context inLayouts hmode]
  simp only []
  refine ⟨ha, ?_, ?_, ?_, ?_, ?_, ?_⟩
  · have := (placeLayouts_lengths E (List.replicate N none) (List.replicate N invalidIdx)).2
    rw [this, enumFrom_filter_bindless_length]
    simp
  · have := (placeLayouts_lengths E (List.replicate N none) (List.replicate N invalidIdx)).1
    rw [this, enumFrom_filter_bindless_length]
    simp
  · intro i hi hb
    have hdecomp : inLayouts
        = inLayouts.take i ++ inLayouts.get ⟨i, hi⟩ :: inLayouts.drop (i + 1) := by
      conv_lhs => rw [← List.take_append_drop i inLayouts]
      rw [List.drop_eq_getElem_cons hi]
      rfl
    have htake : (inLayouts.take i).length = i :=
      List.length_take_of_le (Nat.le_of_lt hi)
    have hEdecomp : E = enumFrom 0 (inLayouts.take i)
        ++ (i, inLayouts.get ⟨i, hi⟩) :: enumFrom (i + 1) (inLayouts.drop (i + 1)) := by
      rw [hE]
      conv_lhs => rw [hdecomp]
      rw [enumFrom_append]
      simp [htake, enumFrom]
    set A := enumFrom 0 (inLayouts.take i) with hA
    set B := enumFrom (i + 1) (inLayouts.drop (i + 1)) with hB
    set l := inLayouts.get ⟨i, hi⟩ with hl
    set rs := l.desc.registerSpace with hrs
    have hmem_l : l ∈ inLayouts := by
      rw [hl]
      exact List.get_mem inLayouts i hi
    have hrs_lt : rs < N := hlt l hmem_l hb
    have hplace : placeLayouts E
          (List.replicate N none, List.replicate N invalidIdx)
        = placeLayouts B
            (((placeLayouts A (List.replicate N none, List.replicate N invalidIdx)).1).set rs
              (some l),
             ((placeLayouts A (List.replicate N none, List.replicate N invalidIdx)).2).set rs i) := by
      rw [hEdecomp, placeLayouts_append]
      rw [show placeLayouts A (List.replicate N none, List.replicate N invalidIdx)
            = ((placeLayouts A (List.replicate N none, List.replicate N invalidIdx)).1,
               (placeLayouts A (List.replicate N none, List.replicate N invalidIdx)).2) from rfl]
      rw [placeLayouts_cons_regular i l B _ _ hb]
    have hlenA := placeLayouts_lengths A (List.replicate N none) (List.replicate N invalidIdx)
    have hrs_lt1 : rs < (placeLayouts A
        (List.replicate N none, List.replicate N invalidIdx)).1.length := by
      rw [hlenA.1]
      simp
      omega
    have hrs_lt2 : rs < (placeLayouts A
        (List.replicate N none, List.replicate N invalidIdx)).2.length := by
      rw [hlenA.2]
      simp
      omega
    have hmem_il : (i, l) ∈ E := by
      rw [hEdecomp]
      exact List.mem_append_right _ (List.mem_cons_self _ _)
    have hBne : ∀ p ∈ B, p.2.isBindless = false → p.2.desc.registerSpace ≠ rs := by
      intro p hp hpb
      have hpE : p ∈ E := by
        rw [hEdecomp]
        exact List.mem_append_right _ (List.mem_cons_of_mem _ hp)
      have hge : i + 1 ≤ p.1 := enumFrom_fst_ge (i + 1) _ p hp
      have hne : p.1 ≠ (i, l).1 := by
        simp only []
        omega
      exact hdist p hpE (i, l) hmem_il hpb hb hne
    have hglow := placeLayouts_get_low B
      ((placeLayouts A (List.replicate N none, List.replicate N invalidIdx)).1.set rs (some l))
      ((placeLayouts A (List.replicate N none, List.replicate N invalidIdx)).2.set rs i)
      rs (by simpa using hrs_lt1) (by simpa using hrs_lt2) hBne
    rw [hplace]
    constructor
    · rw [hglow.2, List.getElem?_set_self (by simpa using hrs_lt2)]
    · rw [hglow.1, List.getElem?_set_self (by simpa using hrs_lt1)]
  · have hdrop := placeLayouts_drop E (List.replicate N none) (List.replicate N invalidIdx)
      (by simp) hErs
    have := hdrop.2
    rw [List.length_replicate] at this
    rw [this]
  · have hdrop := placeLayouts_drop E (List.replicate N none) (List.replicate N invalidIdx)
      (by simp) hErs
    have := hdrop.1
    rw [List.length_replicate] at this
    rw [this, hE, enumFrom_filter_bindless_fst]
  · intro k hk hknot
    have hkE : ∀ p ∈ E, p.2.isBindless = false → p.2.desc.registerSpace ≠ k := by
      intro p hp hb
      exact hknot p.2 (enumFrom_snd_mem 0 inLayouts p hp) hb
    have hglow := placeLayouts_get_low E (List.replicate N none) (List.replicate N invalidIdx)
      k (by simpa using hk) (by simpa using hk) hkE
    refine ⟨?_, ?_, ?_⟩
    · rw [hglow.2, List.getElem?_replicate_of_lt hk]
    · rw [hglow.1, List.getElem?_replicate_of_lt hk]
    · rw [pipelineFinal_dsls context _ [] 0 0, List.nil_append, List.getElem?_map,
        hglow.1, List.getElem?_replicate_of_lt hk]
      rfl

/-- The spec's round-trip example: layout A at register space 0, layout B
at register space 2, both with `registerSpaceIsDescriptorSet`. -/
def exampleLayoutA : BindingLayout :=
  { isBindless := false
    desc := { visibility := 1, registerSpace := 0, registerSpaceIsDescriptorSet := true,
              bindings := [], bindingOffsets := default }
    bindlessDesc := default
    vulkanLayoutBindings := []
    descriptorSetLayout := 101 }

def exampleLayoutB : BindingLayout :=
  { isBindless := false
    desc := { visibility := 1, registerSpace := 2, registerSpaceIsDescriptorSet := true,
              bindings := [], bindingOffsets := default }
    bindlessDesc := default
    vulkanLayoutBindings := []
    descriptorSetLayout := 102 }

theorem createPipelineLayout_indexed_witness :
    createIdxFlag [exampleLayoutA, exampleLayoutB] = true
    ∧ numRegularDescriptorSets [exampleLayoutA, exampleLayoutB]
        = 1 + (([exampleLayoutA, exampleLayoutB].filter (fun l => !l.isBindless)).map
            (fun l => l.desc.registerSpace)).foldl max 0
    ∧ (createPipelineLayout sampleContext
        [exampleLayoutA, exampleLayoutB]).outDescriptorSetIdxToBindingIdx
        = [0, invalidIdx, 1]
    ∧ (createPipelineLayout sampleContext
        [exampleLayoutA, exampleLayoutB]).outBindingLayouts
        = [some exampleLayoutA, none, some exampleLayoutB]
    ∧ (createPipelineLayout sampleContext
        [exampleLayoutA, exampleLayoutB]).descriptorSetLayouts
        = [101, sampleContext.emptyDescriptorSetLayout, 102] :=
  ⟨by decide,
   (createPipelineLayout_indexed sampleContext [exampleLayoutA, exampleLayoutB]
      (by decide) (by decide) (by decide)).1,
   by decide, by decide, by decide⟩

/-! ### Command binding: `CommandList::bindBindingSets` (lines 887-967) -/

/-- A volatile constant buffer (the fields this code path reads;
`id` models pointer identity, the key of `m_VolatileBufferStates`). -/
structure Buffer where
  id : Nat
  byteSize : Nat
  isVolatile : Bool
deriving DecidableEq, Inhabited

/-- `nvrhi::BindingSetDesc` (the field this code path reads). -/
structure BindingSetDesc where
  trackLiveness : Bool
deriving DecidableEq, Inhabited

/-- `nvrhi::vulkan::BindingSet` (the fields this code path reads). -/
structure BindingSet where
  descriptorSet : Nat
  desc : BindingSetDesc
  volatileConstantBuffers : List Buffer
deriving DecidableEq, Inhabited

/-- An `IBindingSet*` in the binding vector is either a `BindingSet`
(`getDesc()` non-null) or a `DescriptorTable` (`getDesc()` null). -/
inductive IBindingSet where
  | set (bindingSet : BindingSet)
  | table (descriptorTable : DescriptorTable)
deriving DecidableEq, Inhabited

def descriptorSetOf : IBindingSet → Nat
  | IBindingSet.set bindingSet => bindingSet.descriptorSet
  | IBindingSet.table descriptorTable => descriptorTable.descriptorSet

/-- `m_VolatileBufferStates` lookup: buffer identity to latest version. -/
def findVolatileState : List (Nat × Nat) → Nat → Option Nat
  | [], _ => none
  | (id, version) :: rest, key => if id = key then some version else findVolatileState rest key

/-- One native `bindDescriptorSets` call. -/
structure BindCall where
  firstSet : Nat
  descriptorSets : List Nat
  dynamicOffsets : List Nat
deriving DecidableEq, Inhabited

/-- The loop state of `bindBindingSets` (plus the calls and diagnostics
already emitted). -/
structure BindState where
  calls : List BindCall
  descriptorSets : List Nat
  dynamicOffsets : List Nat
  nextDescriptorSetToBind : Nat
  diagnostics : List Fault
deriving DecidableEq, Inhabited

/-- The inner volatile-constant-buffer loop body (lines 929-948): a
buffer with no recorded write reports a diagnostic and appends dynamic
offset 0; otherwise the appended offset is
`latestVersion * byteSize` truncated to uint32 (the code asserts the
product fits). -/
def volatileStep (volatileStates : List (Nat × Nat)) (acc : List Nat × List Fault)
    (constantBuffer : Buffer) : List Nat × List Fault :=
  match findVolatileState volatileStates constantBuffer.id with
  | none =>
    (acc.1 ++ [0], acc.2 ++ [Fault.volatileBufferNotWritten constantBuffer.id])
  | some version =>
    (acc.1 ++ [u32 (version * constantBuffer.byteSize)], acc.2)

/-- The dynamic offsets and diagnostics contributed by one binding set. -/
def volatileOffsetsAndDiags (volatileStates : List (Nat × Nat)) (bindingSet : BindingSet) :
    List Nat × List Fault :=
  bindingSet.volatileConstantBuffers.foldl (volatileStep volatileStates) ([], [])

def volatileOffsetsOf (volatileStates : List (Nat × Nat)) : IBindingSet → List Nat
  | IBindingSet.set bindingSet => (volatileOffsetsAndDiags volatileStates bindingSet).1
  | IBindingSet.table _ => []

def volatileDiagsOf (volatileStates : List (Nat × Nat)) : IBindingSet → List Fault
  | IBindingSet.set bindingSet => (volatileOffsetsAndDiags volatileStates bindingSet).2
  | IBindingSet.table _ => []

/-- Handle resolution for output position `i` (lines 897-905): direct
index when there is no index map, else through the map, with the
0xFFFFFFFF sentinel resolving to "no handle". -/
def resolveBinding (bindings : List (Option IBindingSet)) (idxMap : List Nat) (i : Nat) :
    Option IBindingSet :=
  if idxMap.isEmpty then bindings.getD i none
  else if idxMap.getD i 0 ≠ invalidIdx then bindings.getD (idxMap.getD i 0) none
  else none

/-- One iteration of the `bindBindingSets` loop (lines 895-959).
A hole flushes the pending contiguous run (when non-empty) and starts
the next run after the hole; a concrete handle extends the pending run,
a binding set also appending its dynamic offsets (and diagnostics) in
buffer-declaration order.  (Liveness retention of the binding-set handle,
line 950-951, is a side effect no claim observes and is not modelled.) -/
def bindStep (volatileStates : List (Nat × Nat)) (bindings : List (Option IBindingSet))
    (idxMap : List Nat) (s : BindState) (i : Nat) : BindState :=
  match resolveBinding bindings idxMap i with
  | none =>
    if s.descriptorSets.isEmpty then
      { s with nextDescriptorSetToBind := i + 1 }
    else
      { calls := s.calls ++ [{ firstSet := s.nextDescriptorSetToBind
                               descriptorSets := s.descriptorSets
                               dynamicOffsets := s.dynamicOffsets }]
        descriptorSets := []
        dynamicOffsets := []
        nextDescriptorSetToBind := i + 1
        diagnostics := s.diagnostics }
  | some (IBindingSet.set bindingSet) =>
    { s with
      descriptorSets := s.descriptorSets ++ [bindingSet.descriptorSet]
      dynamicOffsets := s.dynamicOffsets
        ++ (volatileOffsetsAndDiags volatileStates bindingSet).1
      diagnostics := s.diagnostics
        ++ (volatileOffsetsAndDiags volatileStates bindingSet).2 }
  | some (IBindingSet.table descriptorTable) =>
    { s with descriptorSets := s.descriptorSets ++ [descriptorTable.descriptorSet] }

/-- The trailing flush (lines 960-966). -/
def flushState (s : BindState) : List BindCall × List Fault :=
  (if s.descriptorSets.isEmpty then s.calls
   else s.calls ++ [{ firstSet := s.nextDescriptorSetToBind
                      descriptorSets := s.descriptorSets
                      dynamicOffsets := s.dynamicOffsets }],
   s.diagnostics)

/-- `CommandList::bindBindingSets` (lines 887-967): the native bind calls
issued, in order, together with the diagnostics reported. -/
def bindBindingSets (volatileStates : List (Nat × Nat))
    (bindings : List (Option IBindingSet)) (idxMap : List Nat) :
    List BindCall × List Fault :=
  let numDescriptorSets := if idxMap.isEmpty then bindings.length else idxMap.length
  flushState ((List.range numDescriptorSets).foldl
    (bindStep volatileStates bindings idxMap)
    { calls := [], descriptorSets := [], dynamicOffsets := []
      nextDescriptorSetToBind := 0, diagnostics := [] })

/-- The longest prefix of concrete handles, and the remainder. -/
def splitRun : List (Option α) → List α × List (Option α)
  | [] => ([], [])
  | none :: rest => ([], none :: rest)
  | some a :: rest => ((a :: (splitRun rest).1), (splitRun rest).2)

theorem splitRun_snd_length (l : List (Option α)) : (splitRun l).2.length ≤ l.length := by
  induction l with
  | nil => simp [splitRun]
  | cons x rest ih =>
    cases x with
    | none => simp [splitRun]
    | some a =>
      simp only [splitRun, List.length_cons]
      omega

/-- The maximal contiguous runs of concrete handles in a resolved handle
list, starting at output position `i`: each run is (start position,
handles), and runs are separated by at least one hole. -/
def runsFrom : Nat → List (Option α) → List (Nat × List α)
  | _, [] => []
  | i, none :: rest => runsFrom (i + 1) rest
  | i, some a :: rest =>
    (i, a :: (splitRun rest).1) :: runsFrom (i + 1 + (splitRun rest).1.length) (splitRun rest).2
termination_by _ l => l.length
decreasing_by
  all_goals simp_wf
  all_goals try have := splitRun_snd_length rest (α := α)
  all_goals omega

/-- The loop-shaped run accumulator used to relate the imperative loop to
`runsFrom`: `pending` is the run being accumulated, `next` its start. -/
def runsWith : List α → Nat → Nat → List (Option α) → List (Nat × List α)
  | pending, next, _, [] => if pending.isEmpty then [] else [(next, pending)]
  | pending, next, i, none :: rest =>
    (if pending.isEmpty then [] else [(next, pending)]) ++ runsWith [] (i + 1) (i + 1) rest
  | pending, next, i, some a :: rest => runsWith (pending ++ [a]) next (i + 1) rest

/-- The native call a run flushes to: first set = run start, one
descriptor set per handle, dynamic offsets concatenated in handle order
(each binding set contributing its buffers in declaration order). -/
def runBindCall (volatileStates : List (Nat × Nat)) (r : Nat × List IBindingSet) : BindCall :=
  { firstSet := r.1
    descriptorSets := r.2.map descriptorSetOf
    dynamicOffsets := r.2.flatMap (volatileOffsetsOf volatileStates) }

theorem runsWith_nil_empty (next i : Nat) : runsWith ([] : List α) next i [] = [] := rfl

theorem runsWith_cons_empty (p : α) (ps : List α) (next i : Nat) :
    runsWith (p :: ps) next i [] = [(next, p :: ps)] := rfl

theorem runsWith_nil_none (next i : Nat) (rest : List (Option α)) :
    runsWith ([] : List α) next i (none :: rest) = runsWith [] (i + 1) (i + 1) rest := by
  simp [runsWith]

theorem runsWith_cons_none (p : α) (ps : List α) (next i : Nat) (rest : List (Option α)) :
    runsWith (p :: ps) next i (none :: rest)
      = (next, p :: ps) :: runsWith [] (i + 1) (i + 1) rest := by
  simp [runsWith]

theorem runsWith_some (pending : List α) (next i : Nat) (a : α) (rest : List (Option α)) :
    runsWith pending next i (some a :: rest) = runsWith (pending ++ [a]) next (i + 1) rest :=
  rfl

/-- Master characterization of the bind loop: starting from a state whose
pending run is `pending` (with run start `next`, equal to `i` when the
run is empty), folding the loop body over positions `i..i+k-1` and
flushing yields the previously emitted calls followed by one call per
run, and the diagnostics of all resolved binding sets in order. -/
theorem bindLoop_spec (volatileStates : List (Nat × Nat))
    (bindings : List (Option IBindingSet)) (idxMap : List Nat) (k : Nat) :
    ∀ (i next : Nat) (pending : List IBindingSet) (calls : List BindCall)
      (diags : List Fault),
    (pending = [] → next = i) →
    flushState ((List.range' i k).foldl (bindStep volatileStates bindings idxMap)
        { calls := calls
          descriptorSets := pending.map descriptorSetOf
          dynamicOffsets := pending.flatMap (volatileOffsetsOf volatileStates)
          nextDescriptorSetToBind := next
          diagnostics := diags })
      = (calls ++ (runsWith pending next i
            ((List.range' i k).map (resolveBinding bindings idxMap))).map
              (runBindCall volatileStates),
         diags ++ (((List.range' i k).map
            (resolveBinding bindings idxMap)).filterMap id).flatMap
              (volatileDiagsOf volatileStates)) := by
  induction k with
  | zero =>
    intro i next pending calls diags hinv
    simp only [List.range'_zero, List.foldl_nil, List.map_nil, List.filterMap_nil,
      List.flatMap_nil, List.append_nil]
    cases pending with
    | nil => simp [flushState, runsWith_nil_empty]
    | cons p ps => simp [flushState, runsWith_cons_empty, runBindCall]
  | succ k ih =>
    intro i next pending calls diags hinv
    rw [List.range'_succ]
    simp only [List.foldl_cons, List.map_cons]
    cases hres : resolveBinding bindings idxMap i with
    | none =>
      cases pending with
      | nil =>
        simp only [List.map_nil, List.flatMap_nil]
        have hstep : bindStep volatileStates bindings idxMap
              { calls := calls, descriptorSets := [], dynamicOffsets := []
                nextDescriptorSetToBind := next, diagnostics := diags } i
            = { calls := calls, descriptorSets := [], dynamicOffsets := []
                nextDescriptorSetToBind := i + 1, diagnostics := diags } := by
          unfold bindStep
          rw [hres]
          rfl
        rw [hstep]
        have hrec := ih (i + 1) (i + 1) [] calls diags (fun _ => rfl)
        simp only [List.map_nil, List.flatMap_nil] at hrec
        rw [hrec, runsWith_nil_none]
        simp
      | cons p ps =>
        have hstep : bindStep volatileStates bindings idxMap
              { calls := calls
                descriptorSets := (p :: ps).map descriptorSetOf
                dynamicOffsets := (p :: ps).flatMap (volatileOffsetsOf volatileStates)
                nextDescriptorSetToBind := next, diagnostics := diags } i
            = { calls := calls ++
                  [{ firstSet := next
                     descriptorSets := (p :: ps).map descriptorSetOf
                     dynamicOffsets := (p :: ps).flatMap (volatileOffsetsOf volatileStates) }]
                descriptorSets := [], dynamicOffsets := []
                nextDescriptorSetToBind := i + 1, diagnostics := diags } := by
          unfold bindStep
          rw [hres]
          rfl
        rw [hstep]
        have hrec := ih (i + 1) (i + 1) []
          (calls ++
            [{ firstSet := next
               descriptorSets := (p :: ps).map descriptorSetOf
               dynamicOffsets := (p :: ps).flatMap (volatileOffsetsOf volatileStates) }])
          diags (fun _ => rfl)
        simp only [List.map_nil, List.flatMap_nil] at hrec
        rw [hrec, runsWith_cons_none]
        simp [runBindCall]
    | some it =>
      have hstep : bindStep volatileStates bindings idxMap
            { calls := calls
              descriptorSets := pending.map descriptorSetOf
              dynamicOffsets := pending.flatMap (volatileOffsetsOf volatileStates)
              nextDescriptorSetToBind := next
              diagnostics := diags } i
          = { calls := calls
              descriptorSets := (pending ++ [it]).map descriptorSetOf
              dynamicOffsets := (pending ++ [it]).flatMap (volatileOffsetsOf volatileStates)
              nextDescriptorSetToBind := next
              diagnostics := diags ++ volatileDiagsOf volatileStates it } := by
        unfold bindStep
        rw [hres]
        cases it with
        | set bindingSet =>
          simp [volatileOffsetsOf, volatileDiagsOf, descriptorSetOf]
        | table descriptorTable =>
          simp [volatileOffsetsOf, volatileDiagsOf, descriptorSetOf]
      rw [hstep]
      have hrec := ih (i + 1) next (pending ++ [it])
        calls (diags ++ volatileDiagsOf volatileStates it) (by simp)
      rw [hrec, runsWith_some]
      simp

/-- The loop-shaped accumulator agrees with the maximal-run
decomposition: with an empty pending run it produces exactly the maximal
runs, and with a pending run it completes that run with the longest
concrete prefix and continues. -/
theorem runs_bridge (n : Nat) : ∀ (l : List (Option α)), l.length ≤ n →
    (∀ i : Nat, runsWith ([] : List α) i i l = runsFrom i l)
    ∧ (∀ (p : α) (ps : List α) (next i : Nat),
        runsWith (p :: ps) next i l
          = (next, (p :: ps) ++ (splitRun l).1)
            :: runsFrom (i + (splitRun l).1.length) (splitRun l).2) := by
  induction n with
  | zero =>
    intro l hl
    have : l = [] := List.length_eq_zero.mp (Nat.le_zero.mp hl)
    subst this
    constructor
    · intro i
      rw [runsWith_nil_empty]
      simp [runsFrom]
    · intro p ps next i
      simp [runsWith_cons_empty, runsFrom, splitRun]
  | succ n ih =>
    intro l hl
    cases l with
    | nil =>
      constructor
      · intro i
        rw [runsWith_nil_empty]
        simp [runsFrom]
      · intro p ps next i
        simp [runsWith_cons_empty, runsFrom, splitRun]
    | cons o rest =>
      have hrest : rest.length ≤ n := by
        simp only [List.length_cons] at hl
        omega
      cases o with
      | none =>
        constructor
        · intro i
          rw [runsWith_nil_none, (ih rest hrest).1 (i + 1)]
          simp [runsFrom]
        · intro p ps next i
          rw [runsWith_cons_none, (ih rest hrest).1 (i + 1)]
          simp [runsFrom, splitRun]
      | some a =>
        constructor
        · intro i
          rw [runsWith_some, List.nil_append, (ih rest hrest).2 a [] i (i + 1)]
          simp [runsFrom]
        · intro p ps next i
          rw [runsWith_some]
          rw [show (p :: ps) ++ [a] = p :: (ps ++ [a]) from rfl]
          rw [(ih rest hrest).2 p (ps ++ [a]) next (i + 1)]
          simp only [splitRun, List.length_cons]
          rw [show i + ((splitRun rest).1.length + 1)
                = i + 1 + (splitRun rest).1.length from by omega]
          simp [List.append_assoc]

/-- `bindBindingSets` in closed form: one native call per maximal
contiguous run of resolved handles, and the diagnostics of the resolved
binding sets in order. -/
theorem bindBindingSets_eq (volatileStates : List (Nat × Nat))
    (bindings : List (Option IBindingSet)) (idxMap : List Nat) :
    bindBindingSets volatileStates bindings idxMap
      = ((runsFrom 0 ((List.range
            (if idxMap.isEmpty then bindings.length else idxMap.length)).map
            (resolveBinding bindings idxMap))).map (runBindCall volatileStates),
         (((List.range
            (if idxMap.isEmpty then bindings.length else idxMap.length)).map
            (resolveBinding bindings idxMap)).filterMap id).flatMap
              (volatileDiagsOf volatileStates)) := by
  simp only [bindBindingSets]
  rw [List.range_eq_range']
  have hspec := bindLoop_spec volatileStates bindings idxMap
    (if idxMap.isEmpty then bindings.length else idxMap.length) 0 0 [] [] []
    (fun _ => rfl)
  simp only [List.map_nil, List.flatMap_nil] at hspec
  rw [hspec]
  rw [(runs_bridge _ _ (Nat.le_refl _)).1 0]
  simp

theorem bindBindingSets_contiguous_runs (volatileStates : List (Nat × Nat))
    (bindings : List (Option IBindingSet)) (idxMap : List Nat) :
    ((bindBindingSets volatileStates bindings idxMap).1).map
        (fun c => (c.firstSet, c.descriptorSets.length))
      = (runsFrom 0 ((List.range
            (if idxMap.isEmpty then bindings.length else idxMap.length)).map
            (resolveBinding bindings idxMap))).map (fun r => (r.1, r.2.length)) := by
  rw [bindBindingSets_eq]
  simp [runBindCall]

def exampleSet0 : BindingSet :=
  { descriptorSet := 10, desc := { trackLiveness := false }, volatileConstantBuffers := [] }

def exampleSet2 : BindingSet :=
  { descriptorSet := 12, desc := { trackLiveness := false }, volatileConstantBuffers := [] }

theorem bindBindingSets_example :
    (bindBindingSets []
        [some (IBindingSet.set exampleSet0), none, some (IBindingSet.set exampleSet2)] []).1
      = [{ firstSet := 0, descriptorSets := [10], dynamicOffsets := [] },
         { firstSet := 2, descriptorSets := [12], dynamicOffsets := [] }] := by
  decide

/-- C3: `bindBindingSets` emits exactly one native bind call per maximal
contiguous run of concrete (non-hole, non-null) resolved handles, with
first-set equal to the run's start position and descriptor-set count
equal to the run's length (so a hole never appears inside a single
call); in particular the direct-mode vector [S0, null, S2] yields
exactly the two calls {firstSet 0, count 1} and {firstSet 2, count 1}. -/
theorem bindBindingSets_maximal_runs :
    (∀ (volatileStates : List (Nat × Nat)) (bindings : List (Option IBindingSet))
        (idxMap : List Nat),
      ((bindBindingSets volatileStates bindings idxMap).1).map
          (fun c => (c.firstSet, c.descriptorSets.length))
        = (runsFrom 0 ((List.range
              (if idxMap.isEmpty then bindings.length else idxMap.length)).map
              (resolveBinding bindings idxMap))).map (fun r => (r.1, r.2.length)))
    ∧ (bindBindingSets []
          [some (IBindingSet.set exampleSet0), none, some (IBindingSet.set exampleSet2)] []).1
        = [{ firstSet := 0, descriptorSets := [10], dynamicOffsets := [] },
           { firstSet := 2, descriptorSets := [12], dynamicOffsets := [] }] :=
  ⟨bindBindingSets_contiguous_runs, bindBindingSets_example⟩

/-- The inner volatile loop in closed form (still with the uint32
truncation of the offset product). -/
theorem volatileFold_spec (volatileStates : List (Nat × Nat)) (bufs : List Buffer) :
    ∀ (xs : List Nat) (ys : List Fault),
    bufs.foldl (volatileStep volatileStates) (xs, ys)
      = (xs ++ bufs.map (fun b =>
            match findVolatileState volatileStates b.id with
            | none => 0
            | some version => u32 (version * b.byteSize)),
         ys ++ (bufs.filter (fun b => (findVolatileState volatileStates b.id).isNone)).map
            (fun b => Fault.volatileBufferNotWritten b.id)) := by
  induction bufs with
  | nil => intro xs ys; simp
  | cons b rest ih =>
    intro xs ys
    simp only [List.foldl_cons, List.map_cons, List.filter_cons]
    cases hf : findVolatileState volatileStates b.id with
    | none =>
      rw [show volatileStep volatileStates (xs, ys) b
            = (xs ++ [0], ys ++ [Fault.volatileBufferNotWritten b.id]) from by
          unfold volatileStep
          rw [hf]]
      rw [ih]
      simp [hf]
    | some version =>
      rw [show volatileStep volatileStates (xs, ys) b
            = (xs ++ [u32 (version * b.byteSize)], ys) from by
          unfold volatileStep
          rw [hf]]
      rw [ih]
      simp [hf]

/-- C5: during `bindBindingSets`, each volatile constant buffer of a
bound binding set contributes, in buffer-declaration order: dynamic
offset 0 together with a reported diagnostic when the buffer has no
recorded write, and otherwise dynamic offset
`latestVersion * byteSize` (no truncation, given the asserted bound);
and the offsets land in the same bind call as the set, concatenated in
run order. -/
theorem bindBindingSets_volatile_offsets (volatileStates : List (Nat × Nat))
    (bindingSet : BindingSet) (bindings : List (Option IBindingSet)) (idxMap : List Nat)
    (hfit : ∀ b ∈ bindingSet.volatileConstantBuffers, ∀ version,
      findVolatileState volatileStates b.id = some version →
      version * b.byteSize < 4294967296) :
    (volatileOffsetsAndDiags volatileStates bindingSet).1
        = bindingSet.volatileConstantBuffers.map (fun b =>
            match findVolatileState volatileStates b.id with
            | none => 0
            | some version => version * b.byteSize)
    ∧ (volatileOffsetsAndDiags volatileStates bindingSet).2
        = (bindingSet.volatileConstantBuffers.filter
            (fun b => (findVolatileState volatileStates b.id).isNone)).map
            (fun b => Fault.volatileBufferNotWritten b.id)
    ∧ (bindBindingSets volatileStates bindings idxMap).1
        = (runsFrom 0 ((List.range
              (if idxMap.isEmpty then bindings.length else idxMap.length)).map
              (resolveBinding bindings idxMap))).map (runBindCall volatileStates)
    ∧ (bindBindingSets volatileStates bindings idxMap).2
        = (((List.range
              (if idxMap.isEmpty then bindings.length else idxMap.length)).map
              (resolveBinding bindings idxMap)).filterMap id).flatMap
            (volatileDiagsOf volatileStates) := by
  refine ⟨?_, ?_, ?_, ?_⟩
  · unfold volatileOffsetsAndDiags
    rw [volatileFold_spec volatileStates bindingSet.volatileConstantBuffers [] []]
    simp only [List.nil_append]
    apply List.map_congr_left
    intro b hb
    cases hf : findVolatileState volatileStates b.id with
    | none => rfl
    | some version =>
      simp only []
      exact u32_of_lt (hfit b hb version hf)
  · unfold volatileOffsetsAndDiags
    rw [volatileFold_spec volatileStates bindingSet.volatileConstantBuffers [] []]
    simp
  · rw [bindBindingSets_eq]
  · rw [bindBindingSets_eq]

def exampleWrittenBuffer : Buffer := { id := 1, byteSize := 256, isVolatile := true }

def exampleUnwrittenBuffer : Buffer := { id := 2, byteSize := 128, isVolatile := true }

def exampleVolatileSet : BindingSet :=
  { descriptorSet := 20
    desc := { trackLiveness := false }
    volatileConstantBuffers := [exampleWrittenBuffer, exampleUnwrittenBuffer] }

theorem bindBindingSets_volatile_offsets_witness :
    ((∀ b ∈ exampleVolatileSet.volatileConstantBuffers, ∀ version,
        findVolatileState [(1, 3)] b.id = some version →
        version * b.byteSize < 4294967296)
      ∧ (volatileOffsetsAndDiags [(1, 3)] exampleVolatileSet).1 = [768, 0]
      ∧ (volatileOffsetsAndDiags [(1, 3)] exampleVolatileSet).2
          = [Fault.volatileBufferNotWritten 2])
    ∧ ((volatileOffsetsAndDiags [(1, 3)] exampleVolatileSet).1
        = exampleVolatileSet.volatileConstantBuffers.map (fun b =>
            match findVolatileState [(1, 3)] b.id with
            | none => 0
            | some version => version * b.byteSize)
      ∧ (volatileOffsetsAndDiags [(1, 3)] exampleVolatileSet).2
          = (exampleVolatileSet.volatileConstantBuffers.filter
              (fun b => (findVolatileState [(1, 3)] b.id).isNone)).map
              (fun b => Fault.volatileBufferNotWritten b.id)
      ∧ (bindBindingSets [(1, 3)] [some (IBindingSet.set exampleVolatileSet)] []).1
          = (runsFrom 0 ((List.range
                (if ([] : List Nat).isEmpty
                  then [some (IBindingSet.set exampleVolatileSet)].length
                  else ([] : List Nat).length)).map
                (resolveBinding [some (IBindingSet.set exampleVolatileSet)] []))).map
              (runBindCall [(1, 3)])
      ∧ (bindBindingSets [(1, 3)] [some (IBindingSet.set exampleVolatileSet)] []).2
          = (((List.range
                (if ([] : List Nat).isEmpty
                  then [some (IBindingSet.set exampleVolatileSet)].length
                  else ([] : List Nat).length)).map
                (resolveBinding [some (IBindingSet.set exampleVolatileSet)] [])).filterMap
                  id).flatMap (volatileDiagsOf [(1, 3)])) :=
  ⟨⟨by decide, by decide, by decide⟩,
   bindBindingSets_volatile_offsets [(1, 3)] exampleVolatileSet
     [some (IBindingSet.set exampleVolatileSet)] [] (by decide)⟩

end nvrhi
